import Mathlib

/-!
Verification development for the light compiler core of ericw-tools
(src/light/entities.cc, src/light/bounce.cc, src/common/bsputils.cc).

The C++ sources are shallowly embedded: C++ floats and doubles are modelled
as exact rationals (ℚ), C strings and std::string as lists of characters,
std::vector as lists, and fallible code (fatal Error calls, assertions,
exceptions) as Except / Option results.  Calls into code that is not part
of the repository (libm trigonometry, vector normalization, sscanf/stof/atof,
the external ModelInfoForFace policy, the RNG) are taken as parameters in an
`Ext` record so that theorems quantify over every possible behaviour of
those externals.  Unbounded recursion (BSP descent, polygon subdivision,
parser loops) is expressed with explicit fuel.
-/

namespace ETools

/-- Model of vec3_t / qvec3d: a 3-vector of exact rationals. -/
structure Vec3 where
  x : ℚ
  y : ℚ
  z : ℚ
deriving DecidableEq, Repr

def v3zero : Vec3 := ⟨0, 0, 0⟩

def v3add (a b : Vec3) : Vec3 := ⟨a.x + b.x, a.y + b.y, a.z + b.z⟩

def v3sub (a b : Vec3) : Vec3 := ⟨a.x - b.x, a.y - b.y, a.z - b.z⟩

def v3scale (s : ℚ) (a : Vec3) : Vec3 := ⟨s * a.x, s * a.y, s * a.z⟩

/-- VectorMA: a + s*b. -/
def v3ma (a : Vec3) (s : ℚ) (b : Vec3) : Vec3 := v3add a (v3scale s b)

def v3dot (a b : Vec3) : ℚ := a.x * b.x + a.y * b.y + a.z * b.z

/-- Component access by axis index 0/1/2 (C code indexes vec3_t by int). -/
def v3nth (a : Vec3) : ℕ → ℚ
  | 0 => a.x
  | 1 => a.y
  | _ => a.z

def v3setNth (a : Vec3) (i : ℕ) (q : ℚ) : Vec3 :=
  match i with
  | 0 => ⟨q, a.y, a.z⟩
  | 1 => ⟨a.x, q, a.z⟩
  | _ => ⟨a.x, a.y, q⟩

/- ### Characters and strings

C++ std::string is modelled as List Char.  Characters that are awkward as
literals are named. -/

def lbrace : Char := Char.ofNat 123

def rbrace : Char := Char.ofNat 125

def dquote : Char := Char.ofNat 34

def backslashCh : Char := Char.ofNat 92

def newlineCh : Char := Char.ofNat 10

def spaceCh : Char := Char.ofNat 32

/-- A C++ string by value. -/
abbrev CStr := List Char

/-- classname.find("light") == 0 in C++: the first argument is an initial
segment of the second. -/
def lcStartsWith : CStr → CStr → Bool
  | [], _ => true
  | _ :: _, [] => false
  | p :: ps, c :: cs => p = c && lcStartsWith ps cs

/-- Case-insensitive character comparison, modelling tolower-based
Q_strcasecmp equality. -/
def chLower (c : Char) : Char :=
  if 65 ≤ c.toNat ∧ c.toNat ≤ 90 then Char.ofNat (c.toNat + 32) else c

/-- Q_strcasecmp(a, b) == 0. -/
def qStrcaseEq (a b : CStr) : Bool :=
  a.map chLower = b.map chLower

/-- The character condition of the round-trip property: no backslash,
double quote or brace. -/
def goodChar (c : Char) : Bool :=
  c ≠ backslashCh && c ≠ dquote && c ≠ lbrace && c ≠ rbrace

def goodStr (l : CStr) : Bool := l.all goodChar

/- ### Entity dictionaries

Modelled from the spec: entdict_t is an ordered string→string mapping; keys
keep their insertion order, assignment to an existing key replaces its value
in place.  (The concrete container type is not among the provided sources;
the spec fixes its observable behaviour.) -/

abbrev EntDict := List (CStr × CStr)

/-- dict[k] = v : replace in place if the key exists, else append. -/
def edSet : EntDict → CStr → CStr → EntDict
  | [], k, v => [(k, v)]
  | (k', v') :: rest, k, v =>
    if k' = k then (k, v) :: rest else (k', v') :: edSet rest k v

/-- dict.find(k) as an optional value. -/
def edFind : EntDict → CStr → Option CStr
  | [], _ => none
  | (k', v') :: rest, k => if k' = k then some v' else edFind rest k

/-- dict.erase(dict.find(k)): drop the (unique) entry with the key. -/
def edErase : EntDict → CStr → EntDict
  | [], _ => []
  | (k', v') :: rest, k => if k' = k then rest else (k', v') :: edErase rest k

/-- EntDict_StringForKey: the stored value, or the empty string. -/
def entDictStringForKey (d : EntDict) (k : CStr) : CStr :=
  (edFind d k).getD []

/- ### std::to_string (modelled: external library code) -/

def digitCh (d : ℕ) : Char := Char.ofNat (48 + d)

def natToCharsCore : ℕ → ℕ → List Char → List Char
  | 0, _, acc => acc
  | fuel + 1, n, acc =>
    if n < 10 then digitCh n :: acc
    else natToCharsCore fuel (n / 10) (digitCh (n % 10) :: acc)

/-- Decimal digits of a natural number (model of std::to_string). -/
def natToChars (n : ℕ) : List Char := natToCharsCore (n + 1) n []

/-- std::to_string on int. -/
def intToChars (n : ℤ) : List Char :=
  if n < 0 then Char.ofNat 45 :: natToChars (-n).toNat else natToChars n.toNat

/- ### ParseEscapeSequences (src/light/entities.cc:807-829)

A backslash-b pair toggles a bold flag; while the flag is set every emitted
byte has its high bit ORed in. -/

def boldCh (bold : Bool) (c : Char) : Char :=
  if bold then Char.ofNat (c.toNat ||| 128) else c

def parseEscapes : Bool → List Char → List Char
  | _, [] => []
  | bold, c :: rest =>
    match rest with
    | [] => [boldCh bold c]
    | c2 :: rest2 =>
      if c = backslashCh ∧ c2 = 'b' then parseEscapes (!bold) rest2
      else boldCh bold c :: parseEscapes bold (c2 :: rest2)

/- ### COM_Parse

Modelled from the spec: the tokenizer is whitespace-separated; a quoted
string allows embedded spaces with no escape handling at this layer; each
brace is a single-character token.  Returns none at end of data.
(COM_Parse lives in common/cmdlib, which is not among the provided
sources.) -/

def isSpaceCh (c : Char) : Bool := c.toNat ≤ 32

def skipSpaces : List Char → List Char
  | [] => []
  | c :: rest => if isSpaceCh c then skipSpaces rest else c :: rest

/-- Read a quoted token: everything up to the closing quote (or end). -/
def readQuoted : List Char → List Char × List Char
  | [] => ([], [])
  | c :: rest =>
    if c = dquote then ([], rest)
    else
      let (t, r) := readQuoted rest
      (c :: t, r)

/-- Read a bare word: everything up to the next whitespace. -/
def readWord (l : List Char) : List Char × List Char :=
  (l.takeWhile (fun c => !isSpaceCh c), l.dropWhile (fun c => !isSpaceCh c))

def COM_Parse (data : List Char) : Option (List Char × List Char) :=
  match skipSpaces data with
  | [] => none
  | c :: rest =>
    if c = dquote then some (readQuoted rest)
    else if c = lbrace ∨ c = rbrace then some ([c], rest)
    else some (readWord (c :: rest))

/- ### EntData_Parse (src/light/entities.cc:700-752) -/

/-- MAX_ENT_KEY - 1 and MAX_ENT_VALUE - 1 (spec: keys bounded to 31 chars,
values to 1023 chars at parse time). -/
def maxEntKeyLen : ℕ := 31

def maxEntValueLen : ℕ := 1023

inductive PErr where
  /-- found non-{ when expecting { -/
  | expectedBrace
  /-- EOF without closing brace -/
  | eof
  /-- Key length > 31 -/
  | keyLen
  /-- closing brace without data -/
  | braceVal
  /-- Value length > 1023 -/
  | valLen
  /-- artificial fuel exhaustion (never occurs at the fuel chosen below) -/
  | fuel
deriving DecidableEq, Repr

/-- The inner key/value loop of EntData_Parse. -/
def parsePairs : ℕ → List Char → EntDict → Except PErr (EntDict × List Char)
  | 0, _, _ => .error .fuel
  | fuel + 1, data, acc =>
    match COM_Parse data with
    | none => .error .eof
    | some (keystr, rest) =>
      if keystr = [rbrace] then .ok (acc, rest)
      else if maxEntKeyLen < keystr.length then .error .keyLen
      else
        match COM_Parse rest with
        | none => .error .eof
        | some (valstring, rest2) =>
          if valstring.head? = some rbrace then .error .braceVal
          else if maxEntValueLen < valstring.length then .error .valLen
          else parsePairs fuel rest2 (edSet acc keystr valstring)

/-- The outer entity loop of EntData_Parse. -/
def parseEnts : ℕ → List Char → List EntDict → Except PErr (List EntDict)
  | 0, _, _ => .error .fuel
  | fuel + 1, data, res =>
    match COM_Parse data with
    | none => .ok res
    | some (tok, rest) =>
      if tok.head? ≠ some lbrace then .error .expectedBrace
      else
        match parsePairs (rest.length + 1) rest [] with
        | .error e => .error e
        | .ok (entity, rest2) => parseEnts fuel rest2 (res ++ [entity])

/-- EntData_Parse.  Every loop iteration consumes at least one character,
so length-derived fuel can never run out. -/
def entData_Parse (data : List Char) : Except PErr (List EntDict) :=
  parseEnts (data.length + 1) data []

/- ### EntData_Write (src/light/entities.cc:759-771) -/

def writePair (kv : CStr × CStr) : List Char :=
  dquote :: kv.1 ++ dquote :: spaceCh :: dquote :: kv.2 ++ [dquote, newlineCh]

def writeEnt (e : EntDict) : List Char :=
  lbrace :: newlineCh :: e.flatMap writePair ++ [rbrace, newlineCh]

def entData_Write (es : List EntDict) : List Char :=
  es.flatMap writeEnt

/- ### BSP view (read-only data model)

One structure serves both the bsp2_t view used by light/entities.cc and the
mbsp_t view used by common/bsputils.cc: both are indexed collections of the
same lumps.  Only the fields read by the embedded functions are modelled. -/

structure DPlane where
  normal : Vec3
  dist : ℚ
  /-- plane type tag: 0/1/2 = axial X/Y/Z, otherwise general -/
  ptype : ℤ
deriving DecidableEq, Repr

structure DNode where
  planenum : ℕ
  /-- two child indices; negative encodes a leaf as -1-leafnum -/
  children0 : ℤ
  children1 : ℤ
  firstface : ℕ
  numfaces : ℕ
deriving DecidableEq, Repr

structure MLeaf where
  contents : ℤ
  firstmarksurface : ℕ
  nummarksurfaces : ℕ
deriving DecidableEq, Repr

structure DModel where
  /-- headnode[0] (hull 0 is the only hull the embedded queries use) -/
  headnode : ℤ
  mins : Vec3
  maxs : Vec3
deriving DecidableEq, Repr

structure GTexinfo where
  miptex : ℤ
  flags : ℤ
  texture : CStr
deriving DecidableEq, Repr

structure Miptex where
  name : CStr
  width : ℤ
  height : ℤ
deriving DecidableEq, Repr

structure MFace where
  planenum : ℕ
  side : Bool
  firstedge : ℤ
  numedges : ℕ
  texinfo : ℤ
deriving DecidableEq, Repr

structure MBsp where
  dmodels : List DModel
  dnodes : List DNode
  dleafs : List MLeaf
  dplanes : List DPlane
  dfaces : List MFace
  dvertexes : List Vec3
  dedges : List (ℕ × ℕ)
  dsurfedges : List ℤ
  texinfo : List GTexinfo
  /-- bsp->dtex.textures -/
  dtexTextures : List Miptex
  /-- rgba miptex lump; only the name field is read by the embedded code -/
  drgbatexdata : List Miptex
  dmarksurfaces : List ℕ
  /-- bsp->loadversion->game->id == GAME_QUAKE_II -/
  isQ2 : Bool
deriving DecidableEq, Repr

/- Content constants (values from the standard Quake BSP headers, which are
not among the provided sources; only SOLID/SKY/EMPTY identities matter). -/

def CONTENTS_EMPTY : ℤ := -1

def CONTENTS_SOLID : ℤ := -2

def CONTENTS_SKY : ℤ := -6

def Q2_CONTENTS_SOLID : ℤ := 1

def dplane0 : DPlane := ⟨v3zero, 0, 3⟩

def dnode0 : DNode := ⟨0, 0, 0, 0, 0⟩

def mleaf0 : MLeaf := ⟨0, 0, 0⟩

def miptex0 : Miptex := ⟨[], 0, 0⟩

def mface0 : MFace := ⟨0, false, 0, 0, 0⟩

/-- Read a list at a C int index; a negative or overlarge index reads are
outside the defined behaviour of the C code and yield the supplied default. -/
def listGetZ (l : List α) (i : ℤ) (dflt : α) : α :=
  if 0 ≤ i then l.getD i.toNat dflt else dflt

instance {ε α : Type} [DecidableEq ε] [DecidableEq α] : DecidableEq (Except ε α) := fun a b =>
  match a, b with
  | .error e, .error f =>
    if h : e = f then .isTrue (by rw [h]) else .isFalse (fun c => h (Except.error.inj c))
  | .ok x, .ok y =>
    if h : x = y then .isTrue (by rw [h]) else .isFalse (fun c => h (Except.ok.inj c))
  | .error _, .ok _ => .isFalse (fun c => Except.noConfusion c)
  | .ok _, .error _ => .isFalse (fun c => Except.noConfusion c)

/-- Element-wise effectful map over Option (a loop that can fail). -/
def optMapM (f : α → Option β) : List α → Option (List β)
  | [] => some []
  | a :: as =>
    match f a with
    | none => none
    | some b => (optMapM f as).map (b :: ·)

/-- Effectful left fold over Except (a loop that can fail). -/
def exFoldl (f : σ → α → Except ε σ) : σ → List α → Except ε σ
  | s, [] => .ok s
  | s, a :: as =>
    match f s a with
    | .error e => .error e
    | .ok s' => exFoldl f s' as

/- ### Light and sun records

Field set follows the spec's "Light record" (light.hh itself is not among
the provided sources); only the fields the embedded functions touch are
present.  intensity/samples style etc. keep the source's names. -/

/-- Light formula enum, in the spec's declaration order. -/
def LF_LINEAR : ℤ := 0

def LF_INVERSE : ℤ := 1

def LF_INVERSE2 : ℤ := 2

def LF_INFINITE : ℤ := 3

def LF_LOCALMIN : ℤ := 4

def LF_INVERSE2A : ℤ := 5

def LF_COUNT : ℤ := 6

/-- DEFAULTLIGHTLEVEL (value from light.hh, not under src; conventional). -/
def DEFAULTLIGHTLEVEL : ℚ := 300

structure LightT where
  origin : Vec3
  light : ℚ
  style : ℤ
  formula : ℤ
  atten : ℚ
  anglescale : ℚ
  deviance : ℚ
  samples : ℤ
  spotlight : Bool
  spotvec : Vec3
  spotangle : ℚ
  spotangle2 : ℚ
  spotfalloff : ℚ
  spotfalloff2 : ℚ
  /-- weak reference to the matched target entdict, stored as an index -/
  targetent : Option ℕ
  generated : Bool
  /-- cached containing-leaf number -/
  leaf : Option ℤ
  /-- back-reference to the source entity dict (stored by value here) -/
  epairs : EntDict
deriving DecidableEq, Repr

structure SunT where
  sunvec : Vec3
  sunlight : ℚ
  sunlight_color : Vec3
  anglescale : ℚ
  dirt : Bool
deriving DecidableEq, Repr

/-- ModelInfoForFace result; only the model offset is read by the embedded
surface-light code. -/
structure ModelInfo where
  offset : Vec3
deriving DecidableEq, Repr

/- ### External collaborators

Floating-point library functions, the C RNG, string-to-number conversions
and the ModelInfoForFace policy layer are external to the translated
sources; they are taken as parameters so every theorem holds for all of
their possible behaviours. -/

structure Ext where
  cosF : ℚ → ℚ
  sinF : ℚ → ℚ
  atan2F : ℚ → ℚ → ℚ
  sqrtF : ℚ → ℚ
  /-- the float value of pi -/
  piF : ℚ
  /-- VectorNormalize / qv::normalize -/
  normalizeF : Vec3 → Vec3
  /-- std::stof; none models the exception path -/
  stofF : CStr → Option ℚ
  atofF : CStr → ℚ
  atoiF : CStr → ℤ
  /-- sscanf(s, "%f %f %f") as used by EntDict_VectorForKey -/
  sscanfVec3F : CStr → Vec3
  /-- the stream of Random() values -/
  randF : ℕ → ℚ
  modelInfoF : ℕ → Option ModelInfo

/-- A trivial instantiation of the externals, used for concrete runs whose
outcome does not depend on them. -/
def ext0 : Ext where
  cosF := fun _ => 0
  sinF := fun _ => 0
  atan2F := fun _ _ => 0
  sqrtF := fun _ => 0
  piF := 0
  normalizeF := fun v => v
  stofF := fun _ => none
  atofF := fun _ => 0
  atoiF := fun _ => 0
  sscanfVec3F := fun _ => v3zero
  randF := fun _ => 0
  modelInfoF := fun _ => some ⟨v3zero⟩

/-- Worldspawn-derived global settings read by the embedded functions. -/
structure Globals where
  global_anglescale : ℚ
  addminlight : Bool
  globalDirt : Bool
  sunlight_dirt : ℤ
  sunlight2_dirt : ℤ
  sunsamples : ℕ
  sun_deviance : ℚ
  sunlight : ℚ
  sunlight_color : Vec3
  sunvec : Vec3
  sun2 : ℚ
  sun2_color : Vec3
  sun2vec : Vec3
  sunlight2 : ℚ
  sunlight2_color : Vec3
  sunlight3 : ℚ
  sunlight3_color : Vec3
  surflight_subdivide : ℚ

/- ### common/bsputils.cc : indexed accessors -/

inductive AErr where
  /-- Q_assert failure -/
  | assertFail
  /-- formatted fatal Error -/
  | fatal
deriving DecidableEq, Repr

namespace BspUtils

/-- BSP_GetNode (bsputils.cc:44-48): assertion-checked node lookup. -/
def BSP_GetNode (bsp : MBsp) (nodenum : ℤ) : Except AErr DNode :=
  if 0 ≤ nodenum ∧ nodenum < bsp.dnodes.length then
    .ok (listGetZ bsp.dnodes nodenum dnode0)
  else .error .assertFail

/-- BSP_GetLeaf (bsputils.cc:50-56): fatal formatted error on a corrupt
leaf index. -/
def BSP_GetLeaf (bsp : MBsp) (leafnum : ℤ) : Except AErr MLeaf :=
  if leafnum < 0 ∨ (bsp.dleafs.length : ℤ) ≤ leafnum then .error .fatal
  else .ok (listGetZ bsp.dleafs leafnum mleaf0)

/-- BSP_GetLeafFromNodeNum (bsputils.cc:58-62). -/
def BSP_GetLeafFromNodeNum (bsp : MBsp) (nodenum : ℤ) : Except AErr MLeaf :=
  BSP_GetLeaf bsp (-1 - nodenum)

/-- BSP_GetPlane (bsputils.cc:64-68). -/
def BSP_GetPlane (bsp : MBsp) (planenum : ℤ) : Except AErr DPlane :=
  if 0 ≤ planenum ∧ planenum < bsp.dplanes.length then
    .ok (listGetZ bsp.dplanes planenum dplane0)
  else .error .assertFail

/-- BSP_GetFace (bsputils.cc:70-74). -/
def BSP_GetFace (bsp : MBsp) (fnum : ℤ) : Except AErr MFace :=
  if 0 ≤ fnum ∧ fnum < bsp.dfaces.length then
    .ok (listGetZ bsp.dfaces fnum mface0)
  else .error .assertFail

/-- Vertex_GetPos (bsputils.cc:107-111). -/
def Vertex_GetPos (bsp : MBsp) (num : ℤ) : Except AErr Vec3 :=
  if 0 ≤ num ∧ num < bsp.dvertexes.length then
    .ok (listGetZ bsp.dvertexes num v3zero)
  else .error .assertFail

/-- BSP_GetTexinfo (bsputils.cc:76-86): returns null (none) instead of
asserting on a bad index. -/
def BSP_GetTexinfo (bsp : MBsp) (texinfo : ℤ) : Option GTexinfo :=
  if texinfo < 0 then none
  else if (bsp.texinfo.length : ℤ) ≤ texinfo then none
  else some (listGetZ bsp.texinfo texinfo ⟨0, 0, []⟩)

/-- Face_Texinfo (bsputils.cc:136-142): null (none) on a bad index. -/
def Face_Texinfo (bsp : MBsp) (face : MFace) : Option GTexinfo :=
  if face.texinfo < 0 ∨ (bsp.texinfo.length : ℤ) ≤ face.texinfo then none
  else some (listGetZ bsp.texinfo face.texinfo ⟨0, 0, []⟩)

/-- Face_Miptex (bsputils.cc:144-162). -/
def Face_Miptex (bsp : MBsp) (face : MFace) : Option Miptex :=
  if bsp.dtexTextures.length = 0 then none
  else
    match Face_Texinfo bsp face with
    | none => none
    | some ti =>
      let mip := listGetZ bsp.dtexTextures ti.miptex miptex0
      if mip.name.length = 0 then none else some mip

/-- Face_RgbaMiptex (bsputils.cc:164-174). -/
def Face_RgbaMiptex (bsp : MBsp) (face : MFace) : Option Miptex :=
  if bsp.drgbatexdata.length = 0 then none
  else
    match Face_Texinfo bsp face with
    | none => none
    | some ti => some (listGetZ bsp.drgbatexdata ti.miptex miptex0)

/-- Face_TextureName (bsputils.cc:176-193). -/
def Face_TextureName (bsp : MBsp) (face : MFace) : CStr :=
  match Face_Miptex bsp face with
  | some mip => mip.name
  | none =>
    match Face_RgbaMiptex bsp face with
    | some rgba => rgba.name
    | none =>
      match Face_Texinfo bsp face with
      | some ti => if ti.texture ≠ [] then ti.texture else []
      | none => []

end BspUtils

/- ### Signed point/plane distance -/

/-- Plane_Dist (entities.cc:933-942): axial shortcut on the plane type tag,
general dot product otherwise. -/
def Plane_Dist (point : Vec3) (plane : DPlane) : ℚ :=
  if plane.ptype = 0 then point.x - plane.dist
  else if plane.ptype = 1 then point.y - plane.dist
  else if plane.ptype = 2 then point.z - plane.dist
  else v3dot point plane.normal - plane.dist

/-- qplane3d::distance_to_fast, used by bsputils.cc.  Modelled from the
spec: "signed distance to plane" (qvec.hh is not among the provided
sources; the fast variant takes the same axial shortcut as Plane_Dist). -/
def distanceToFast (plane : DPlane) (point : Vec3) : ℚ :=
  Plane_Dist point plane

/- ### Light_PointInSolid (bsputils.cc:267-304) -/

namespace BspUtils

/-- Leaf contents test of Light_PointInSolid_r (bsputils.cc:272-277):
Quake 2 masks with Q2_CONTENTS_SOLID, Quake 1 treats SOLID and SKY as
solid. -/
def leafContentsSolid (bsp : MBsp) (leaf : MLeaf) : Bool :=
  if bsp.isQ2 then Int.land leaf.contents Q2_CONTENTS_SOLID ≠ 0
  else leaf.contents = CONTENTS_SOLID ∨ leaf.contents = CONTENTS_SKY

inductive PSErr where
  /-- recursion bounded by fuel in the model -/
  | fuel
  /-- fatal BSP_GetLeafFromNodeNum on a corrupt leaf index -/
  | badLeaf
deriving DecidableEq, Repr

/-- Light_PointInSolid_r (bsputils.cc:267-290). -/
def Light_PointInSolid_r (bsp : MBsp) : ℕ → ℤ → Vec3 → Except PSErr Bool
  | 0, _, _ => .error .fuel
  | fuel + 1, nodenum, point =>
    if nodenum < 0 then
      match BSP_GetLeafFromNodeNum bsp nodenum with
      | .error _ => .error .badLeaf
      | .ok leaf => .ok (leafContentsSolid bsp leaf)
    else
      let node := listGetZ bsp.dnodes nodenum dnode0
      let dist := distanceToFast (bsp.dplanes.getD node.planenum dplane0) point
      if dist > 1/10 then Light_PointInSolid_r bsp fuel node.children0 point
      else if dist < -(1/10) then Light_PointInSolid_r bsp fuel node.children1 point
      else
        match Light_PointInSolid_r bsp fuel node.children0 point with
        | .error e => .error e
        | .ok a =>
          match Light_PointInSolid_r bsp fuel node.children1 point with
          | .error e => .error e
          | .ok b => .ok (a || b)

/-- The AABB early-out of Light_PointInSolid (bsputils.cc:295-301). -/
def pointInModelBounds (model : DModel) (point : Vec3) : Bool :=
  !decide (point.x < model.mins.x) && !decide (point.x > model.maxs.x) &&
  (!decide (point.y < model.mins.y) && !decide (point.y > model.maxs.y)) &&
  (!decide (point.z < model.mins.z) && !decide (point.z > model.maxs.z))

/-- Light_PointInSolid (bsputils.cc:292-304): AABB early-out, then hull-0
descent from the model's headnode. -/
def Light_PointInSolid (bsp : MBsp) (model : DModel) (fuel : ℕ) (point : Vec3) :
    Except PSErr Bool :=
  if pointInModelBounds model point then
    Light_PointInSolid_r bsp fuel model.headnode point
  else .ok false

end BspUtils

namespace Entities

/-- Light_PointInSolid_r (entities.cc:944-965): the older in-file variant —
unchecked leaf access, Quake 1 contents semantics only. -/
def Light_PointInSolid_r (bsp : MBsp) : ℕ → ℤ → Vec3 → Option Bool
  | 0, _, _ => none
  | fuel + 1, nodenum, point =>
    if nodenum < 0 then
      let leaf := listGetZ bsp.dleafs (-1 - nodenum) mleaf0
      some (decide (leaf.contents = CONTENTS_SOLID ∨ leaf.contents = CONTENTS_SKY))
    else
      let node := listGetZ bsp.dnodes nodenum dnode0
      let dist := Plane_Dist point (bsp.dplanes.getD node.planenum dplane0)
      if dist > 1/10 then Light_PointInSolid_r bsp fuel node.children0 point
      else if dist < -(1/10) then Light_PointInSolid_r bsp fuel node.children1 point
      else
        match Light_PointInSolid_r bsp fuel node.children0 point with
        | none => none
        | some a =>
          match Light_PointInSolid_r bsp fuel node.children1 point with
          | none => none
          | some b => some (a || b)

/-- Light_PointInSolid (entities.cc:967-971): hull 0 of model 0 (world). -/
def Light_PointInSolid (bsp : MBsp) (fuel : ℕ) (point : Vec3) : Option Bool :=
  Light_PointInSolid_r bsp fuel ((bsp.dmodels.getD 0 ⟨0, v3zero, v3zero⟩).headnode) point

end Entities

namespace Entities

/- ### Light-style target registry (entities.cc:59-94) -/

def MAX_LIGHT_TARGETS : ℕ := 32

/-- The linear scan of LightStyleForTargetname. -/
def regLookup : List CStr → CStr → Option ℕ
  | [], _ => none
  | n :: rest, tn => if n = tn then some 0 else (regLookup rest tn).map (· + 1)

/-- LightStyleForTargetname (entities.cc:81-94): find or append in the
lighttargetnames registry, fatal when a 33rd name would be appended. -/
def LightStyleForTargetname (reg : List CStr) (targetname : CStr) :
    Except Unit (ℤ × List CStr) :=
  match regLookup reg targetname with
  | some i => .ok (32 + i, reg)
  | none =>
    if reg.length = MAX_LIGHT_TARGETS then .error ()
    else .ok (32 + reg.length, reg ++ [targetname])

/- ### EntDict numeric lookups -/

/-- C float-to-int cast: truncation toward zero. -/
def ratTrunc (q : ℚ) : ℤ := if 0 ≤ q then ⌊q⌋ else -⌊-q⌋

/-- EntDict_FloatForKey (entities.cc:783-795): empty or unparseable
values read as 0. -/
def entDictFloatForKey (ext : Ext) (d : EntDict) (k : CStr) : ℚ :=
  let s := entDictStringForKey d k
  if s = [] then 0 else (ext.stofF s).getD 0

/- ### First pass of LoadEntities (entities.cc:843-869)

Per entity dict, in order: the lightmap_scale rename, switchable-light
style assignment through the target registry, then escape decoding of all
values. -/

def classnameKey : CStr := "classname".toList

def targetnameKey : CStr := "targetname".toList

def styleKey : CStr := "style".toList

def lightWord : CStr := "light".toList

def lmScaleKey : CStr := "lightmap_scale".toList

def lmScaleNewKey : CStr := "_lightmap_scale".toList

/-- Escape decoding applied to every value of a dict
(entities.cc:866-868). -/
def escapeDict (d : EntDict) : EntDict :=
  d.map (fun kv => (kv.1, parseEscapes false kv.2))

/-- The targetname value of a dict. -/
def dictTargetname (d : EntDict) : CStr := entDictStringForKey d targetnameKey

/-- A light-classname entity with a non-empty targetname and no explicit
style key: the ones the claim quantifies over. -/
def qualifiesSwitchable (d : EntDict) : Bool :=
  lcStartsWith lightWord (entDictStringForKey d classnameKey) &&
    dictTargetname d ≠ [] && (edFind d styleKey).isNone

/-- The lightmap_scale rename at the top of the loop body
(entities.cc:846-852). -/
def pass1Rename (d : EntDict) : EntDict :=
  let lmscale := entDictStringForKey d lmScaleKey
  if lmscale ≠ [] then edSet (edErase d lmScaleKey) lmScaleNewKey lmscale else d

/-- The switchable-light condition of entities.cc:854-856. -/
def pass1Assign (ext : Ext) (d1 : EntDict) : Bool :=
  if lcStartsWith lightWord (entDictStringForKey d1 classnameKey) then
    decide (entDictStringForKey d1 targetnameKey ≠ [] ∧
      ratTrunc (entDictFloatForKey ext d1 styleKey) = 0)
  else false

/-- The body of the first LoadEntities loop for one dict, threading the
lighttargetnames registry. -/
def pass1Dict (ext : Ext) (reg : List CStr) (d : EntDict) :
    Except Unit (EntDict × List CStr) :=
  let d1 := pass1Rename d
  if pass1Assign ext d1 then
    match LightStyleForTargetname reg (entDictStringForKey d1 targetnameKey) with
    | .error e => .error e
    | .ok (style, reg') =>
      .ok (escapeDict (edSet d1 styleKey (intToChars style)), reg')
  else .ok (escapeDict d1, reg)

/-- The first LoadEntities loop over all dicts. -/
def loadEntities_pass1 (ext : Ext) : List EntDict → List CStr →
    Except Unit (List EntDict × List CStr)
  | [], reg => .ok ([], reg)
  | d :: ds, reg =>
    match pass1Dict ext reg d with
    | .error e => .error e
    | .ok (d', reg') =>
      match loadEntities_pass1 ext ds reg' with
      | .error e => .error e
      | .ok (ds', reg'') => .ok (d' :: ds', reg'')

/- ### CheckEntityFields (entities.cc:176-221) -/

inductive Warning where
  | unknownFormula
deriving DecidableEq, Repr

/-- The intensity/attenuation/anglescale defaulting at the top of
CheckEntityFields (entities.cc:179-185). -/
def cefDefaults (g : Globals) (e : LightT) : LightT :=
  let e := if e.light = 0 then { e with light := DEFAULTLIGHTLEVEL } else e
  let e := if e.atten ≤ 0 then { e with atten := 1 } else e
  if e.anglescale < 0 ∨ e.anglescale > 1 then
    { e with anglescale := g.global_anglescale } else e

/-- The unknown-formula test of CheckEntityFields (entities.cc:187). -/
def cefBadFormula (e : LightT) : Prop := e.formula < LF_LINEAR ∨ e.formula ≥ LF_COUNT

instance (e : LightT) : Decidable (cefBadFormula e) :=
  inferInstanceAs (Decidable (e.formula < LF_LINEAR ∨ e.formula ≥ LF_COUNT))

/-- The deviance/samples defaulting and the per-sample intensity division
of CheckEntityFields (entities.cc:200-216). -/
def cefSamples (g : Globals) (e : LightT) : LightT :=
  let e := if e.deviance > 0 ∧ e.samples = 0 then { e with samples := 16 } else e
  let e := if e.deviance ≤ 0 ∨ e.samples ≤ 1 then
    { e with deviance := 0, samples := 1 } else e
  if e.formula = LF_INVERSE ∨ e.formula = LF_INVERSE2 ∨ e.formula = LF_INFINITE
      ∨ (e.formula = LF_LOCALMIN ∧ g.addminlight) ∨ e.formula = LF_INVERSE2A then
    { e with light := e.light / e.samples } else e

/-- CheckEntityFields: field defaulting and validation for one light.
State input/output is the warned_once flag; the returned list holds the
warnings emitted by this call; fatal style errors are the Except error. -/
def CheckEntityFields (g : Globals) (warnedOnce : Bool) (e : LightT) :
    Except Unit (LightT × Bool × List Warning) :=
  let e1 := cefDefaults g e
  let warnings := if cefBadFormula e1 ∧ ¬ warnedOnce then [Warning.unknownFormula] else []
  let warnedOnce' := if cefBadFormula e1 ∧ ¬ warnedOnce then true else warnedOnce
  let e2 := if cefBadFormula e1 then { e1 with formula := LF_LINEAR } else e1
  let e3 := cefSamples g e2
  if e3.style < 0 ∨ e3.style > 254 then .error ()
  else .ok (e3, warnedOnce', warnings)

/-- The source initializes the warned_once flag for unknown-formula
warnings to true (entities.cc:188). -/
def warnedOnceInit : Bool := true

/- ### Suns (entities.cc:230-264) -/

/-- Dirt_ResolveFlag (entities.cc:230-236). -/
def Dirt_ResolveFlag (g : Globals) (dirtInt : ℤ) : Bool :=
  if dirtInt = 1 then true else if dirtInt = -1 then false else g.globalDirt

/-- AddSun (entities.cc:243-264): normalize, scale to a far point, resolve
the dirt flag, append. -/
def AddSun (ext : Ext) (g : Globals) (suns : List SunT) (sunvec : Vec3) (light : ℚ)
    (color : Vec3) (dirtInt : ℤ) : List SunT :=
  suns ++ [{ sunvec := v3scale (-16384) (ext.normalizeF sunvec)
             sunlight := light
             sunlight_color := color
             anglescale := g.global_anglescale
             dirt := Dirt_ResolveFlag g dirtInt }]

/-- DEG2RAD. -/
def deg2rad (ext : Ext) (q : ℚ) : ℚ := q * (ext.piF / 180)

/- ### SetupSkyDome (entities.cc:354-438) -/

/-- Exact model of rint(sqrt(k)) for a natural k.  For a natural argument
sqrt(k) is never exactly halfway between integers (4k is even while any
odd square is odd), so rint's ties-to-even equals rounding to the nearest
integer, which equals floor((sqrt(4k)+1)/2). -/
def rintSqrtNat (k : ℕ) : ℕ := (Nat.sqrt (4 * k) + 1) / 2

/-- iterations (entities.cc:365-366): rint(sqrt((sunsamples - 1) / 4)) + 1
with C integer division, then clamped to at least 2. -/
def skyDomeIterations (sunsamples : ℕ) : ℕ :=
  max (rintSqrtNat ((sunsamples - 1) / 4) + 1) 2

/-- The inner angle loop of SetupSkyDome (entities.cc:398-419): one grid
row; emits an upper sun and a lower sun per cell, each gated on its
intensity being positive. -/
def skyDomeAngleLoop (ext : Ext) (g : Globals) (s2val s3val : ℚ) (elevation : ℚ)
    (angleStep : ℚ) : ℕ → ℚ → List SunT → List SunT × ℚ
  | 0, angle, suns => (suns, angle)
  | j + 1, angle, suns =>
    let direction : Vec3 :=
      ⟨ext.cosF angle * ext.cosF elevation,
       ext.sinF angle * ext.cosF elevation,
       -(ext.sinF elevation)⟩
    let suns := if s2val > 0 then
      AddSun ext g suns direction s2val g.sunlight2_color g.sunlight2_dirt else suns
    let direction2 : Vec3 := { direction with z := -direction.z }
    let suns := if s3val > 0 then
      AddSun ext g suns direction2 s3val g.sunlight3_color g.sunlight2_dirt else suns
    skyDomeAngleLoop ext g s2val s3val elevation angleStep j (angle + angleStep) suns

/-- The elevation loop of SetupSkyDome (entities.cc:395-424), with the
inter-row phase shift angle += angleStep / elevationSteps. -/
def skyDomeElevationLoop (ext : Ext) (g : Globals) (s2val s3val : ℚ)
    (angleStep elevationStep : ℚ) (elevationSteps : ℕ) :
    ℕ → ℚ → ℚ → List SunT → List SunT
  | 0, _, _, suns => suns
  | i + 1, elevation, angle, suns =>
    let (suns, angle) :=
      skyDomeAngleLoop ext g s2val s3val elevation angleStep (4 * elevationSteps) angle suns
    skyDomeElevationLoop ext g s2val s3val angleStep elevationStep elevationSteps i
      (elevation + elevationStep) (angle + angleStep / elevationSteps) suns

/-- SetupSkyDome (entities.cc:354-438). -/
def SetupSkyDome (ext : Ext) (g : Globals) (suns : List SunT) : List SunT :=
  let iterations := skyDomeIterations g.sunsamples
  if g.sunlight2 ≤ 0 ∧ g.sunlight3 ≤ 0 then suns
  else
    let elevationSteps := iterations - 1
    let angleSteps := elevationSteps * 4
    let elevationStep := deg2rad ext (90 / (elevationSteps + 1))
    let angleStep := deg2rad ext (360 / angleSteps)
    let numSuns := angleSteps * elevationSteps + 1
    let s2val := g.sunlight2 / numSuns
    let s3val := g.sunlight3 / numSuns
    let suns := skyDomeElevationLoop ext g s2val s3val angleStep elevationStep
      elevationSteps elevationSteps (elevationStep * (1/2)) 0 suns
    let suns := if s2val > 0 then
      AddSun ext g suns ⟨0, 0, 1⟩ s2val g.sunlight2_color g.sunlight2_dirt else suns
    if s3val > 0 then
      AddSun ext g suns ⟨0, 0, -1⟩ s3val g.sunlight3_color g.sunlight2_dirt else suns

/-- The sun count SetupSkyDome derives from its iteration counts. -/
def skyDomeNumSuns (sunsamples : ℕ) : ℕ :=
  let elevationSteps := skyDomeIterations sunsamples - 1
  (elevationSteps * 4) * elevationSteps + 1

/- ### JitterEntity / JitterEntities (entities.cc:445-491) -/

/-- DuplicateEntity (entities.cc:445-450): a plain copy. -/
def DuplicateEntity (src : LightT) : LightT := src

/-- One jittered duplicate: generated, origin offset per component by
uniform random in [-deviance, +deviance].  ctr indexes the Random()
stream. -/
def jitterDup (ext : Ext) (e : LightT) (c : ℕ) : LightT :=
  { DuplicateEntity e with
    generated := true
    origin := ⟨e.origin.x + (ext.randF c * 2 - 1) * e.deviance,
               e.origin.y + (ext.randF (c + 1) * 2 - 1) * e.deviance,
               e.origin.z + (ext.randF (c + 2) * 2 - 1) * e.deviance⟩ }

/-- The j = 1 .. samples-1 loop body of JitterEntity, counted down. -/
def jitterDups (ext : Ext) (e : LightT) : ℕ → ℕ → List LightT × ℕ
  | 0, c => ([], c)
  | k + 1, c =>
    let (rest, c') := jitterDups ext e k (c + 3)
    (jitterDup ext e c :: rest, c')

/-- JitterEntity (entities.cc:461-481): the duplicates appended for one
light. -/
def JitterEntity (ext : Ext) (c : ℕ) (e : LightT) : List LightT × ℕ :=
  jitterDups ext e (e.samples - 1).toNat c

/-- All duplicates for a fixed slice of lights, in order. -/
def jitterAll (ext : Ext) : ℕ → List LightT → List LightT × ℕ
  | c, [] => ([], c)
  | c, e :: es =>
    let (d, c') := JitterEntity ext c e
    let (ds, c'') := jitterAll ext c' es
    (d ++ ds, c'')

/-- JitterEntities (entities.cc:483-491): iterate over the pre-jitter
slice only, appending duplicates to the list. -/
def JitterEntities (ext : Ext) (c : ℕ) (lights : List LightT) : List LightT × ℕ :=
  let (dups, c') := jitterAll ext c lights
  (lights ++ dups, c')

/- ### MatchTargets (entities.cc:103-126) -/

def targetKey : CStr := "target".toList

def originKey : CStr := "origin".toList

/-- MatchTargets: store a weak reference (index) to the first entdict
whose targetname equals the light's target; unmatched lights only warn. -/
def MatchTargets (entdicts : List EntDict) (lights : List LightT) : List LightT :=
  lights.map fun e =>
    let targetstr := entDictStringForKey e.epairs targetKey
    if targetstr = [] then e
    else
      match entdicts.findIdx? (fun t => entDictStringForKey t targetnameKey = targetstr) with
      | some i => { e with targetent := some i }
      | none => e

/- ### SetupSpotlights (entities.cc:128-151) -/

def SetupSpotlights (ext : Ext) (entdicts : List EntDict) (lights : List LightT) :
    List LightT :=
  lights.map fun e0 =>
    let e :=
      match e0.targetent with
      | some i =>
        let targetOrigin := ext.sscanfVec3F (entDictStringForKey (entdicts.getD i []) originKey)
        { e0 with spotvec := ext.normalizeF (v3sub targetOrigin e0.origin), spotlight := true }
      | none => e0
    if e.spotlight then
      let angle := if e.spotangle > 0 then e.spotangle else 40
      let angle2 := e.spotangle2
      let angle2 := if angle2 ≤ 0 ∨ angle2 > angle then angle else angle2
      { e with
        spotfalloff := -(ext.cosF (angle / 2 * ext.piF / 180))
        spotfalloff2 := -(ext.cosF (angle2 / 2 * ext.piF / 180)) }
    else e

/- ### SetupSun / SetupSuns (entities.cc:276-343) -/

/-- The jitter rejection loop of SetupSun (entities.cc:313-318), with
fuel; returns the accepted (da, de) and the next RNG index. -/
def sunRejLoop (ext : Ext) (g : Globals) : ℕ → ℕ → Option (ℚ × ℚ × ℕ)
  | 0, _ => none
  | fuel + 1, c =>
    let da := (ext.randF c * 2 - 1) * deg2rad ext g.sun_deviance
    let de := (ext.randF (c + 1) * 2 - 1) * deg2rad ext g.sun_deviance
    if da * da + de * de > g.sun_deviance * g.sun_deviance then
      sunRejLoop ext g fuel (c + 2)
    else some (da, de, c + 2)

/-- Iterations i = 1 .. n-1 of the SetupSun sample loop. -/
def sunSamplesLoop (ext : Ext) (g : Globals) (rejFuel : ℕ) (sunvec : Vec3) (light : ℚ)
    (color : Vec3) : ℕ → ℕ → List SunT → Option (List SunT × ℕ)
  | 0, c, suns => some (suns, c)
  | k + 1, c, suns =>
    match sunRejLoop ext g rejFuel c with
    | none => none
    | some (da, de, c') =>
      let d := ext.sqrtF (sunvec.x * sunvec.x + sunvec.y * sunvec.y)
      let angle := ext.atan2F sunvec.y sunvec.x + da
      let elevation := ext.atan2F sunvec.z d + de
      let direction : Vec3 :=
        ⟨ext.cosF angle * ext.cosF elevation,
         ext.sinF angle * ext.cosF elevation,
         ext.sinF elevation⟩
      sunSamplesLoop ext g rejFuel sunvec light color k c'
        (AddSun ext g suns direction light color g.sunlight_dirt)

/-- SetupSun (entities.cc:276-332). -/
def SetupSun (ext : Ext) (g : Globals) (rejFuel c : ℕ) (suns : List SunT)
    (light : ℚ) (color : Vec3) (sunvec_in : Vec3) : Option (List SunT × ℕ) :=
  let n : ℕ := if g.sun_deviance = 0 then 1 else g.sunsamples
  let sunvec := ext.normalizeF sunvec_in
  let light := light / n
  match n with
  | 0 => some (suns, c)
  | m + 1 =>
    let suns := AddSun ext g suns sunvec light color g.sunlight_dirt
    sunSamplesLoop ext g rejFuel sunvec light color m c suns

/-- SetupSuns (entities.cc:334-343). -/
def SetupSuns (ext : Ext) (g : Globals) (rejFuel c : ℕ) (suns : List SunT) :
    Option (List SunT × ℕ) :=
  match SetupSun ext g rejFuel c suns g.sunlight g.sunlight_color g.sunvec with
  | none => none
  | some (suns, c) =>
    if g.sun2 ≠ 0 then SetupSun ext g rejFuel c suns g.sun2 g.sun2_color g.sun2vec
    else some (suns, c)

/- ### FixLightsOnFaces (entities.cc:973-1011) -/

/-- The six-axis nudge loop of FixLightOnFace (entities.cc:981-993),
given the list of remaining loop indices. -/
def fixNudge (bsp : MBsp) (fuel : ℕ) (point : Vec3) : List ℕ → Option Vec3
  | [] => some point
  | i :: rest =>
    let axis := i / 2
    let add := i % 2 = 1
    let testpoint := v3setNth point axis (v3nth point axis + (if add then 2 else -2))
    match Light_PointInSolid bsp fuel testpoint with
    | none => none
    | some true => fixNudge bsp fuel point rest
    | some false => some testpoint

/-- FixLightOnFace (entities.cc:973-999). -/
def FixLightOnFace (bsp : MBsp) (fuel : ℕ) (point : Vec3) : Option Vec3 :=
  match Light_PointInSolid bsp fuel point with
  | none => none
  | some false => some point
  | some true => fixNudge bsp fuel point [0, 1, 2, 3, 4, 5]

/-- FixLightsOnFaces (entities.cc:1001-1011): in-place origin fix of each
light with non-zero intensity. -/
def FixLightsOnFaces (bsp : MBsp) (fuel : ℕ) (lights : List LightT) :
    Option (List LightT) :=
  optMapM (fun e =>
    if e.light ≠ 0 then
      (FixLightOnFace bsp fuel e.origin).map fun p => { e with origin := p }
    else some e) lights

/- ### SetupLightLeafnums (entities.cc:687-693)

Light_PointInLeaf is declared elsewhere (its translation unit is not among
the provided sources). -/

/-- Modelled from the spec: Light_PointInLeaf caches the light's containing
leaf via world-model BSP descent (front child on the non-negative side of
each node plane). -/
def Light_PointInLeaf_r (bsp : MBsp) : ℕ → ℤ → Vec3 → Option ℤ
  | 0, _, _ => none
  | fuel + 1, nodenum, point =>
    if nodenum < 0 then some (-1 - nodenum)
    else
      let node := listGetZ bsp.dnodes nodenum dnode0
      let dist := Plane_Dist point (bsp.dplanes.getD node.planenum dplane0)
      if dist ≥ 0 then Light_PointInLeaf_r bsp fuel node.children0 point
      else Light_PointInLeaf_r bsp fuel node.children1 point

/-- Modelled from the spec: descent starts at the world model's headnode. -/
def Light_PointInLeaf (bsp : MBsp) (fuel : ℕ) (point : Vec3) : Option ℤ :=
  Light_PointInLeaf_r bsp fuel ((bsp.dmodels.getD 0 ⟨0, v3zero, v3zero⟩).headnode) point

/-- SetupLightLeafnums (entities.cc:687-693). -/
def SetupLightLeafnums (bsp : MBsp) (fuel : ℕ) (lights : List LightT) :
    Option (List LightT) :=
  optMapM (fun e =>
    (Light_PointInLeaf bsp fuel e.origin).map fun l => { e with leaf := some l }) lights

/- ### Surface lights (entities.cc:1102-1378) -/

/-- ValueForKey (entities.cc:1044-1053): empty string when absent. -/
def ValueForKey (e : LightT) (k : CStr) : CStr :=
  entDictStringForKey e.epairs k

def surfaceKey : CStr := "_surface".toList

def surfaceOffsetKey : CStr := "_surface_offset".toList

def surfaceSpotlightKey : CStr := "_surface_spotlight".toList

/-- CreateSurfaceLight (entities.cc:1126-1147): duplicate the template at
the given origin, flag it generated, optionally spotlight it along the
face normal, and append it to all_lights. -/
def CreateSurfaceLight (ext : Ext) (lights : List LightT) (origin normal : Vec3)
    (tmpl : LightT) : List LightT :=
  let entity := DuplicateEntity tmpl
  let entity := { entity with origin := origin, generated := true }
  let entity :=
    if ext.atoiF (ValueForKey tmpl surfaceSpotlightKey) ≠ 0 then
      { entity with spotlight := true, spotvec := normal }
    else entity
  lights ++ [entity]

/-- CreateSurfaceLightOnFaceSubdivision (entities.cc:1149-1182). -/
def CreateSurfaceLightOnFaceSubdivision (ext : Ext) (bsp : MBsp) (face : MFace)
    (mi : ModelInfo) (tmpl : LightT) (verts : List Vec3) (lights : List LightT) :
    List LightT :=
  let midpoint := v3scale (1 / (verts.length : ℚ)) (verts.foldl v3add v3zero)
  let plane := bsp.dplanes.getD face.planenum dplane0
  let normal := if face.side then v3sub v3zero plane.normal else plane.normal
  let offset := ext.atofF (ValueForKey tmpl surfaceOffsetKey)
  let offset := if offset = 0 then 2 else offset
  let midpoint := v3ma midpoint offset normal
  let midpoint := v3add midpoint mi.offset
  CreateSurfaceLight ext lights midpoint normal tmpl

/-- BoundPoly (entities.cc:1184-1200), including its 9999 start bounds. -/
def BoundPoly (verts : List Vec3) : Vec3 × Vec3 :=
  verts.foldl
    (fun mm v =>
      (⟨min mm.1.x v.x, min mm.1.y v.y, min mm.1.z v.z⟩,
       ⟨max mm.2.x v.x, max mm.2.y v.y, max mm.2.z v.z⟩))
    (⟨9999, 9999, 9999⟩, ⟨-9999, -9999, -9999⟩)

/-- The per-axis cut test of SubdividePolygon (entities.cc:1225-1231):
midpoint snapped to the nearest multiple of subdivide_size, requiring at
least 8 units on each side. -/
def cutAxisCheck (mins maxs : Vec3) (S : ℚ) (i : ℕ) : Option ℚ :=
  let m := (v3nth mins i + v3nth maxs i) * (1/2)
  let m := S * (⌊m / S + 1/2⌋ : ℤ)
  if v3nth maxs i - m < 8 then none
  else if m - v3nth mins i < 8 then none
  else some m

/-- First qualifying axis of the i = 0,1,2 scan. -/
def findCutAxis (mins maxs : Vec3) (S : ℚ) : Option (ℕ × ℚ) :=
  match cutAxisCheck mins maxs S 0 with
  | some m => some (0, m)
  | none =>
    match cutAxisCheck mins maxs S 1 with
    | some m => some (1, m)
    | none =>
      match cutAxisCheck mins maxs S 2 with
      | some m => some (2, m)
      | none => none

/-- One vertex step of the clip loop (entities.cc:1244-1269): a vertex on
the plane goes to both sides; an interpolated vertex is emitted on a
strict sign flip. -/
def clipStep (axis : ℕ) (m : ℚ) (fb : List Vec3 × List Vec3) (pair : Vec3 × Vec3) :
    List Vec3 × List Vec3 :=
  let (v, vnext) := pair
  let d := v3nth v axis - m
  let dnext := v3nth vnext axis - m
  let front := if d ≥ 0 then fb.1 ++ [v] else fb.1
  let back := if d ≤ 0 then fb.2 ++ [v] else fb.2
  if d = 0 ∨ dnext = 0 then (front, back)
  else if (decide (d > 0)) ≠ (decide (dnext > 0)) then
    let frac := d / (d - dnext)
    let clip := v3add v (v3scale frac (v3sub vnext v))
    (front ++ [clip], back ++ [clip])
  else (front, back)

/-- The full clip of the polygon against plane x_axis = m, with the
wrap-around pairing of the last vertex with the first. -/
def clipHalves (axis : ℕ) (m : ℚ) (verts : List Vec3) : List Vec3 × List Vec3 :=
  (verts.zip (verts.rotate 1)).foldl (clipStep axis m) ([], [])

inductive SubErr where
  /-- recursion bounded by fuel in the model -/
  | fuel
  /-- the fatal numverts cap (entities.cc:1220-1221) -/
  | numvertsOverflow
  /-- std::vector::at out-of-range (face_visited) -/
  | oob
deriving DecidableEq, Repr

/-- The entry cap check of SubdividePolygon (entities.cc:1220):
Error("numverts = %i") when the input has more than 60 vertices. -/
def subdivideCapExceeded (verts : List Vec3) : Bool := 60 < verts.length

/-- The template scan at a subdivision leaf (entities.cc:1276-1282). -/
def subdivideLeafLights (ext : Ext) (bsp : MBsp) (face : MFace) (mi : ModelInfo)
    (tmpls : List LightT) (verts : List Vec3) (lights : List LightT) : List LightT :=
  let texname := BspUtils.Face_TextureName bsp face
  tmpls.foldl
    (fun lights tmpl =>
      if qStrcaseEq texname (ValueForKey tmpl surfaceKey) then
        CreateSurfaceLightOnFaceSubdivision ext bsp face mi tmpl verts lights
      else lights)
    lights

/-- SubdividePolygon (entities.cc:1207-1283): axis-aligned recursive
subdivision; at a leaf cell, emit one surface light per matching
template. -/
def SubdividePolygon (ext : Ext) (bsp : MBsp) (face : MFace) (mi : ModelInfo)
    (tmpls : List LightT) (S : ℚ) :
    ℕ → List Vec3 → List LightT → Except SubErr (List LightT)
  | 0, _, _ => .error .fuel
  | fuel + 1, verts, lights =>
    if subdivideCapExceeded verts then .error .numvertsOverflow
    else
      let (mins, maxs) := BoundPoly verts
      match findCutAxis mins maxs S with
      | some (axis, m) =>
        let (front, back) := clipHalves axis m verts
        match SubdividePolygon ext bsp face mi tmpls S fuel front lights with
        | .error e => .error e
        | .ok l1 => SubdividePolygon ext bsp face mi tmpls S fuel back l1
      | none => .ok (subdivideLeafLights ext bsp face mi tmpls verts lights)

/-- The face->surfedge->edge vertex lookup of GL_SubdivideSurface
(entities.cc:1295-1304). -/
def faceVert (bsp : MBsp) (face : MFace) (i : ℕ) : Vec3 :=
  let edgenum := listGetZ bsp.dsurfedges (face.firstedge + i) 0
  if 0 ≤ edgenum then bsp.dvertexes.getD (bsp.dedges.getD edgenum.toNat (0, 0)).1 v3zero
  else bsp.dvertexes.getD (bsp.dedges.getD (-edgenum).toNat (0, 0)).2 v3zero

/-- GL_SubdivideSurface (entities.cc:1290-1307). -/
def GL_SubdivideSurface (ext : Ext) (bsp : MBsp) (face : MFace) (mi : ModelInfo)
    (tmpls : List LightT) (S : ℚ) (fuel : ℕ) (lights : List LightT) :
    Except SubErr (List LightT) :=
  let verts := (List.range face.numedges).map (faceVert bsp face)
  SubdividePolygon ext bsp face mi tmpls S fuel verts lights

/-- The first loop of MakeSurfaceLights (entities.cc:1313-1324): copy each
light with a non-empty _surface value into the template list, then zero the
original's intensity in place. -/
def harvestTemplates (lights : List LightT) : List LightT × List LightT :=
  (lights.map fun e =>
      if entDictStringForKey e.epairs surfaceKey ≠ [] then { e with light := 0 } else e,
   lights.filter fun e => entDictStringForKey e.epairs surfaceKey ≠ [])

/-- The per-marksurface body of MakeSurfaceLights (entities.cc:1344-1371),
threading (face_visited, all_lights). -/
def msFace (ext : Ext) (bsp : MBsp) (S : ℚ) (fuel : ℕ) (tmpls : List LightT)
    (underwater : Bool) (facenum : ℕ) (st : List Bool × List LightT) :
    Except SubErr (List Bool × List LightT) :=
  let face := bsp.dfaces.getD facenum mface0
  let texname := BspUtils.Face_TextureName bsp face
  match ext.modelInfoF facenum with
  | none => .ok st
  | some mi =>
    if texname.head? = some '*' ∧ underwater then .ok st
    else if facenum < st.1.length then
      if st.1.getD facenum false then .ok st
      else
        match GL_SubdivideSurface ext bsp face mi tmpls S fuel st.2 with
        | .error e => .error e
        | .ok lights' => .ok (st.1.set facenum true, lights')
    else .error .oob

/-- MakeSurfaceLights (entities.cc:1309-1378).  Returns the updated
all_lights and the surfacelight_templates list. -/
def MakeSurfaceLights (ext : Ext) (bsp : MBsp) (S : ℚ) (fuel : ℕ)
    (lights : List LightT) : Except SubErr (List LightT × List LightT) :=
  let (lights, tmpls) := harvestTemplates lights
  if tmpls.length = 0 then .ok (lights, tmpls)
  else
    let visited := List.replicate bsp.dfaces.length false
    match
      exFoldl
        (fun st i =>
          let leaf := bsp.dleafs.getD i mleaf0
          let underwater := leaf.contents ≠ CONTENTS_EMPTY
          exFoldl
            (fun st k =>
              msFace ext bsp S fuel tmpls underwater
                (bsp.dmarksurfaces.getD (leaf.firstmarksurface + k) 0) st)
            st (List.range leaf.nummarksurfaces))
        (visited, lights) (List.range bsp.dleafs.length)
    with
    | .error e => .error (e : SubErr)
    | .ok st => .ok (st.2, tmpls)

/- ### SetupLights (entities.cc:1013-1042) -/

/-- SetupLights: the fixed-order pipeline after LoadEntities.  The RNG
counter threads from jittering into the sun setup. -/
def SetupLights (ext : Ext) (g : Globals) (bsp : MBsp) (fuel rejFuel c : ℕ)
    (entdicts : List EntDict) (lights0 : List LightT) (suns0 : List SunT) :
    Except SubErr (List LightT × List SunT) :=
  match MakeSurfaceLights ext bsp g.surflight_subdivide fuel lights0 with
  | .error e => .error e
  | .ok (l1, _tmpls) =>
    let (l2, c') := JitterEntities ext c l1
    let l3 := MatchTargets entdicts l2
    let l4 := SetupSpotlights ext entdicts l3
    match SetupSuns ext g rejFuel c' suns0 with
    | none => .error .fuel
    | some (suns1, _) =>
      let suns2 := SetupSkyDome ext g suns1
      match FixLightsOnFaces bsp fuel l4 with
      | none => .error .fuel
      | some l5 =>
        match SetupLightLeafnums bsp fuel l5 with
        | none => .error .fuel
        | some l6 => .ok (l6, suns2)

end Entities

/- ### Refinement definitions taken from the spec's words (not the source) -/

/-- The sky-dome iteration count as the claim words it, with exact real
division: round(sqrt((sunsamples-1)/4)) + 1, min 2.  For a natural q,
round(sqrt(q/4)) equals (Nat.sqrt q + 1) / 2 (proved below against
Real.sqrt). -/
def claimSkyDomeIterations (sunsamples : ℕ) : ℕ :=
  max ((Nat.sqrt (sunsamples - 1) + 1) / 2 + 1) 2

/-- The sun count the claim derives: angleSteps·elevationSteps + 1. -/
def claimSkyDomeNumSuns (sunsamples : ℕ) : ℕ :=
  let e := claimSkyDomeIterations sunsamples - 1
  4 * e * e + 1

/- ### Concrete fixtures for witnesses and counterexamples -/

/-- A zero light record to build concrete lights from. -/
def lightT0 : LightT where
  origin := v3zero
  light := 0
  style := 0
  formula := 0
  atten := 1
  anglescale := 1
  deviance := 0
  samples := 1
  spotlight := false
  spotvec := v3zero
  spotangle := 0
  spotangle2 := 0
  spotfalloff := 0
  spotfalloff2 := 0
  targetent := none
  generated := false
  leaf := none
  epairs := []

/-- An empty BSP. -/
def bsp0 : MBsp where
  dmodels := []
  dnodes := []
  dleafs := []
  dplanes := []
  dfaces := []
  dvertexes := []
  dedges := []
  dsurfedges := []
  texinfo := []
  dtexTextures := []
  drgbatexdata := []
  dmarksurfaces := []
  isQ2 := false

/-- A one-leaf world with a single 8x8 square face textured "t", used to
run the surface-light generator concretely. -/
def bspSurf : MBsp where
  dmodels := [⟨0, ⟨-64, -64, -64⟩, ⟨64, 64, 64⟩⟩]
  dnodes := []
  dleafs := [⟨CONTENTS_EMPTY, 0, 1⟩]
  dplanes := [⟨⟨0, 0, 1⟩, 0, 2⟩]
  dfaces := [⟨0, false, 0, 4, 0⟩]
  dvertexes := [⟨0, 0, 0⟩, ⟨8, 0, 0⟩, ⟨8, 8, 0⟩, ⟨0, 8, 0⟩]
  dedges := [(0, 1), (1, 2), (2, 3), (3, 0)]
  dsurfedges := [0, 1, 2, 3]
  texinfo := [⟨0, 0, []⟩]
  dtexTextures := [⟨"t".toList, 16, 16⟩]
  drgbatexdata := []
  dmarksurfaces := [0]
  isQ2 := false

/-- A surface-light template entity: non-empty _surface, intensity 300. -/
def lightSurf : LightT :=
  { lightT0 with light := 300, epairs := [("_surface".toList, "t".toList)] }

/-- A two-leaf world split by the plane x = 0: leaf 0 (front) solid,
leaf 1 (back) empty. -/
def bspW : MBsp where
  dmodels := [⟨0, ⟨-10, -10, -10⟩, ⟨10, 10, 10⟩⟩]
  dnodes := [⟨0, -1, -2, 0, 0⟩]
  dleafs := [⟨CONTENTS_SOLID, 0, 0⟩, ⟨CONTENTS_EMPTY, 0, 0⟩]
  dplanes := [⟨⟨1, 0, 0⟩, 0, 0⟩]
  dfaces := []
  dvertexes := []
  dedges := []
  dsurfedges := []
  texinfo := []
  dtexTextures := []
  drgbatexdata := []
  dmarksurfaces := []
  isQ2 := false

def modelW : DModel := ⟨0, ⟨-10, -10, -10⟩, ⟨10, 10, 10⟩⟩

/-- Externals whose RNG always yields 1/2. -/
def extHalf : Ext := { ext0 with randF := fun _ => 1/2 }

/- ### The descent relation of Light_PointInSolid

The claim's recursive descent as an inductive reachability predicate:
SolidReach bsp point nodenum holds exactly when the ±0.1 descent from
nodenum reaches a solid leaf. -/

inductive SolidReach (bsp : MBsp) (point : Vec3) : ℤ → Prop
  | leaf (nodenum : ℤ) (hneg : nodenum < 0)
      (hrange : 0 ≤ -1 - nodenum ∧ -1 - nodenum < (bsp.dleafs.length : ℤ))
      (hsolid : BspUtils.leafContentsSolid bsp (listGetZ bsp.dleafs (-1 - nodenum) mleaf0) = true) :
      SolidReach bsp point nodenum
  | front (nodenum : ℤ) (hpos : 0 ≤ nodenum)
      (hdist : distanceToFast
        (bsp.dplanes.getD (listGetZ bsp.dnodes nodenum dnode0).planenum dplane0) point > 1/10)
      (h : SolidReach bsp point (listGetZ bsp.dnodes nodenum dnode0).children0) :
      SolidReach bsp point nodenum
  | back (nodenum : ℤ) (hpos : 0 ≤ nodenum)
      (hdist : distanceToFast
        (bsp.dplanes.getD (listGetZ bsp.dnodes nodenum dnode0).planenum dplane0) point < -(1/10))
      (h : SolidReach bsp point (listGetZ bsp.dnodes nodenum dnode0).children1) :
      SolidReach bsp point nodenum
  | straddle0 (nodenum : ℤ) (hpos : 0 ≤ nodenum)
      (hd1 : ¬ distanceToFast
        (bsp.dplanes.getD (listGetZ bsp.dnodes nodenum dnode0).planenum dplane0) point > 1/10)
      (hd2 : ¬ distanceToFast
        (bsp.dplanes.getD (listGetZ bsp.dnodes nodenum dnode0).planenum dplane0) point < -(1/10))
      (h : SolidReach bsp point (listGetZ bsp.dnodes nodenum dnode0).children0) :
      SolidReach bsp point nodenum
  | straddle1 (nodenum : ℤ) (hpos : 0 ≤ nodenum)
      (hd1 : ¬ distanceToFast
        (bsp.dplanes.getD (listGetZ bsp.dnodes nodenum dnode0).planenum dplane0) point > 1/10)
      (hd2 : ¬ distanceToFast
        (bsp.dplanes.getD (listGetZ bsp.dnodes nodenum dnode0).planenum dplane0) point < -(1/10))
      (h : SolidReach bsp point (listGetZ bsp.dnodes nodenum dnode0).children1) :
      SolidReach bsp point nodenum

def globals0 : Globals where
  global_anglescale := 1
  addminlight := false
  globalDirt := false
  sunlight_dirt := 0
  sunlight2_dirt := 0
  sunsamples := 64
  sun_deviance := 0
  sunlight := 0
  sunlight_color := ⟨255, 255, 255⟩
  sunvec := ⟨0, 0, -1⟩
  sun2 := 0
  sun2_color := ⟨255, 255, 255⟩
  sun2vec := ⟨0, 0, -1⟩
  sunlight2 := 0
  sunlight2_color := ⟨255, 255, 255⟩
  sunlight3 := 0
  sunlight3_color := ⟨255, 255, 255⟩
  surflight_subdivide := 128

/-- Two switchable lights sharing the targetname "b1", before the first
LoadEntities pass. -/
def c2dsIn : List EntDict :=
  [[("classname".toList, "light".toList), ("targetname".toList, "b1".toList)],
   [("classname".toList, "light_flame".toList), ("targetname".toList, "b1".toList)]]

/-- The same two dicts after the pass: both carry style "32". -/
def c2dsOut : List EntDict :=
  [[("classname".toList, "light".toList), ("targetname".toList, "b1".toList),
    ("style".toList, "32".toList)],
   [("classname".toList, "light_flame".toList), ("targetname".toList, "b1".toList),
    ("style".toList, "32".toList)]]

/- ## Theorems -/

open Entities


theorem cefDefaults_formula (g : Globals) (e : LightT) :
    (Entities.cefDefaults g e).formula = e.formula := by
  unfold Entities.cefDefaults
  dsimp only
  split_ifs <;> rfl

theorem cefSamples_formula (g : Globals) (e : LightT) :
    (Entities.cefSamples g e).formula = e.formula := by
  unfold Entities.cefSamples
  dsimp only
  split_ifs <;> rfl

/-- C3: a light whose formula (delay) is outside the enum range is reset to
LINEAR, but no warning is ever emitted for it, because the warned_once flag
starts out already set. -/
theorem c3_unknown_formula_silent_linear (g : Globals) (e e' : LightT) (w : Bool)
    (warns : List Entities.Warning)
    (hrun : Entities.CheckEntityFields g Entities.warnedOnceInit e = .ok (e', w, warns))
    (hbad : e.formula < LF_LINEAR ∨ LF_COUNT ≤ e.formula) :
    e'.formula = LF_LINEAR ∧ warns = [] := by
  have hb : Entities.cefBadFormula (Entities.cefDefaults g e) := by
    unfold Entities.cefBadFormula
    rw [cefDefaults_formula]
    exact hbad
  unfold Entities.CheckEntityFields Entities.warnedOnceInit at hrun
  simp only [not_true, and_false, if_false, if_pos hb] at hrun
  split at hrun
  · exact absurd hrun (by simp)
  · rw [Except.ok.injEq, Prod.mk.injEq, Prod.mk.injEq] at hrun
    obtain ⟨he, -, hwarns⟩ := hrun
    refine ⟨?_, hwarns.symm⟩
    rw [← he, cefSamples_formula]

theorem c3_witness :
    ({ lightT0 with light := 300 } : LightT).formula = LF_LINEAR ∧
      ([] : List Entities.Warning) = [] :=
  c3_unknown_formula_silent_linear globals0 { lightT0 with formula := 99 }
    { lightT0 with light := 300 } true [] (by decide) (by decide)

/-- C4 (amended): more than 60 vertices is fatal at entry; at most 60
passes the entry cap check. -/
theorem c4_vertex_cap (ext : Ext) (bsp : MBsp) (face : MFace) (mi : ModelInfo)
    (tmpls : List LightT) (S : ℚ) (fuel : ℕ) (verts : List Vec3) (lights : List LightT) :
    (60 < verts.length →
      Entities.SubdividePolygon ext bsp face mi tmpls S (fuel + 1) verts lights =
        .error .numvertsOverflow) ∧
    (verts.length ≤ 60 → Entities.subdivideCapExceeded verts = false) := by
  constructor
  · intro h
    unfold Entities.SubdividePolygon
    rw [if_pos]
    simp [Entities.subdivideCapExceeded, h]
  · intro h
    simp [Entities.subdivideCapExceeded]
    omega

theorem c4_witness :
    Entities.SubdividePolygon ext0 bsp0 mface0 ⟨v3zero⟩ [] 128 1
        (List.replicate 61 v3zero) [] = .error .numvertsOverflow ∧
      Entities.subdivideCapExceeded (List.replicate 60 v3zero) = false :=
  ⟨(c4_vertex_cap ext0 bsp0 mface0 ⟨v3zero⟩ [] 128 0 (List.replicate 61 v3zero) []).1
      (by simp),
   (c4_vertex_cap ext0 bsp0 mface0 ⟨v3zero⟩ [] 128 0 (List.replicate 60 v3zero) []).2
      (by simp)⟩

/-- C4 counterexample: a 61-vertex polygon is within the claim's 64-vertex
cap, yet the call is a fatal error. -/
theorem c4_counterexample :
    Entities.SubdividePolygon ext0 bsp0 mface0 ⟨v3zero⟩ [] 128 3
        (List.replicate 61 v3zero) [] = .error .numvertsOverflow ∧
      (List.replicate 61 (v3zero : Vec3)).length ≤ 64 := by
  constructor
  · unfold Entities.SubdividePolygon
    rw [if_pos]
    simp [Entities.subdivideCapExceeded]
  · simp

/-- C10: texinfo lookups return null on a bad index while the other
accessors fail (assertion or fatal error), and the texture name of a face
with a bad texinfo index is the empty string. -/
theorem c10_texinfo_null_guard (bsp : MBsp) (i : ℤ)
    (hbad : i < 0 ∨ (bsp.texinfo.length : ℤ) ≤ i) :
    BspUtils.BSP_GetTexinfo bsp i = none ∧
    (∀ face : MFace, face.texinfo = i →
      BspUtils.Face_Texinfo bsp face = none ∧ BspUtils.Face_TextureName bsp face = []) ∧
    ((i < 0 ∨ (bsp.dnodes.length : ℤ) ≤ i) → BspUtils.BSP_GetNode bsp i = .error .assertFail) ∧
    ((i < 0 ∨ (bsp.dleafs.length : ℤ) ≤ i) → BspUtils.BSP_GetLeaf bsp i = .error .fatal) ∧
    ((i < 0 ∨ (bsp.dplanes.length : ℤ) ≤ i) → BspUtils.BSP_GetPlane bsp i = .error .assertFail) ∧
    ((i < 0 ∨ (bsp.dfaces.length : ℤ) ≤ i) → BspUtils.BSP_GetFace bsp i = .error .assertFail) ∧
    ((i < 0 ∨ (bsp.dvertexes.length : ℤ) ≤ i) →
      BspUtils.Vertex_GetPos bsp i = .error .assertFail) := by
  have hti : ∀ face : MFace, face.texinfo = i → BspUtils.Face_Texinfo bsp face = none := by
    intro face hf
    unfold BspUtils.Face_Texinfo
    rw [if_pos]
    rw [hf]
    exact hbad
  refine ⟨?_, ?_, ?_, ?_, ?_, ?_, ?_⟩
  · unfold BspUtils.BSP_GetTexinfo
    rcases hbad with h | h
    · rw [if_pos h]
    · rw [if_neg (by omega), if_pos h]
  · intro face hf
    have hmip : BspUtils.Face_Miptex bsp face = none := by
      unfold BspUtils.Face_Miptex
      rw [hti face hf]
      split <;> rfl
    have hrgba : BspUtils.Face_RgbaMiptex bsp face = none := by
      unfold BspUtils.Face_RgbaMiptex
      rw [hti face hf]
      split <;> rfl
    refine ⟨hti face hf, ?_⟩
    unfold BspUtils.Face_TextureName
    rw [hmip, hrgba, hti face hf]
  · intro h
    unfold BspUtils.BSP_GetNode
    rw [if_neg (by omega)]
  · intro h
    unfold BspUtils.BSP_GetLeaf
    rw [if_pos (by omega)]
  · intro h
    unfold BspUtils.BSP_GetPlane
    rw [if_neg (by omega)]
  · intro h
    unfold BspUtils.BSP_GetFace
    rw [if_neg (by omega)]
  · intro h
    unfold BspUtils.Vertex_GetPos
    rw [if_neg (by omega)]

theorem c10_witness :
    BspUtils.BSP_GetTexinfo bsp0 (-1) = none ∧
      BspUtils.Face_Texinfo bsp0 { mface0 with texinfo := -1 } = none ∧
      BspUtils.Face_TextureName bsp0 { mface0 with texinfo := -1 } = [] ∧
      BspUtils.BSP_GetNode bsp0 (-1) = .error .assertFail ∧
      BspUtils.BSP_GetLeaf bsp0 (-1) = .error .fatal := by
  obtain ⟨h1, h2, h3, h4, -, -, -⟩ := c10_texinfo_null_guard bsp0 (-1) (by decide)
  exact ⟨h1, (h2 _ rfl).1, (h2 _ rfl).2, h3 (by decide), h4 (by decide)⟩

theorem jitterDups_length (ext : Ext) (e : LightT) :
    ∀ k c, (Entities.jitterDups ext e k c).1.length = k := by
  intro k
  induction k with
  | zero => intro c; rfl
  | succ n ih =>
    intro c
    simp [Entities.jitterDups, ih]

theorem jitterDup_fields (ext : Ext) (e : LightT) (c : ℕ)
    (hr : ∀ n, 0 ≤ ext.randF n ∧ ext.randF n ≤ 1) (hd : 0 ≤ e.deviance) :
    (Entities.jitterDup ext e c).generated = true ∧
    (Entities.jitterDup ext e c).light = e.light ∧
    (Entities.jitterDup ext e c).style = e.style ∧
    (Entities.jitterDup ext e c).samples = e.samples ∧
    (Entities.jitterDup ext e c).deviance = e.deviance ∧
    (Entities.jitterDup ext e c).epairs = e.epairs ∧
    |(Entities.jitterDup ext e c).origin.x - e.origin.x| ≤ e.deviance ∧
    |(Entities.jitterDup ext e c).origin.y - e.origin.y| ≤ e.deviance ∧
    |(Entities.jitterDup ext e c).origin.z - e.origin.z| ≤ e.deviance := by
  have hb : ∀ n, |(ext.randF n * 2 - 1) * e.deviance| ≤ e.deviance := by
    intro n
    obtain ⟨h0, h1⟩ := hr n
    rw [abs_le]
    constructor <;> nlinarith
  refine ⟨rfl, rfl, rfl, rfl, rfl, rfl, ?_, ?_, ?_⟩
  · simpa [Entities.jitterDup, Entities.DuplicateEntity] using hb c
  · simpa [Entities.jitterDup, Entities.DuplicateEntity] using hb (c + 1)
  · simpa [Entities.jitterDup, Entities.DuplicateEntity] using hb (c + 2)

theorem jitterDups_mem (ext : Ext) (e : LightT)
    (hr : ∀ n, 0 ≤ ext.randF n ∧ ext.randF n ≤ 1) (hd : 0 ≤ e.deviance) :
    ∀ k c d, d ∈ (Entities.jitterDups ext e k c).1 →
      d.generated = true ∧ d.light = e.light ∧ d.style = e.style ∧
      d.samples = e.samples ∧ d.deviance = e.deviance ∧ d.epairs = e.epairs ∧
      |d.origin.x - e.origin.x| ≤ e.deviance ∧
      |d.origin.y - e.origin.y| ≤ e.deviance ∧
      |d.origin.z - e.origin.z| ≤ e.deviance := by
  intro k
  induction k with
  | zero => intro c d hmem; simp [Entities.jitterDups] at hmem
  | succ n ih =>
    intro c d hmem
    simp only [Entities.jitterDups, List.mem_cons] at hmem
    rcases hmem with rfl | hmem
    · exact jitterDup_fields ext e c hr hd
    · exact ih (c + 3) d hmem

/-- C6: jittering appends, per light with samples s > 1, exactly s-1
generated duplicates whose origins deviate by at most the light's
deviance per coordinate; originals are untouched and the appended
duplicates are not themselves iterated over. -/
theorem c6_jitter_duplicates (ext : Ext)
    (hr : ∀ n, 0 ≤ ext.randF n ∧ ext.randF n ≤ 1)
    (c : ℕ) (ls : List LightT) (hd : ∀ e ∈ ls, 0 ≤ e.deviance) :
    (Entities.JitterEntities ext c ls).1 = ls ++ (Entities.jitterAll ext c ls).1 ∧
    (∀ e c', (Entities.JitterEntity ext c' e).1.length = (e.samples - 1).toNat) ∧
    (Entities.jitterAll ext c ls).1.length =
      (ls.map (fun e => (e.samples - 1).toNat)).sum ∧
    ∀ d ∈ (Entities.jitterAll ext c ls).1, d.generated = true ∧
      ∃ e ∈ ls, 1 < e.samples ∧ d.light = e.light ∧ d.style = e.style ∧
        d.samples = e.samples ∧ d.deviance = e.deviance ∧ d.epairs = e.epairs ∧
        |d.origin.x - e.origin.x| ≤ e.deviance ∧
        |d.origin.y - e.origin.y| ≤ e.deviance ∧
        |d.origin.z - e.origin.z| ≤ e.deviance := by
  refine ⟨rfl, fun e c' => jitterDups_length ext e _ c', ?_, ?_⟩
  · clear hd
    induction ls generalizing c with
    | nil => rfl
    | cons e es ih =>
      simp only [Entities.jitterAll, List.map_cons, List.sum_cons, List.length_append,
        Entities.JitterEntity, jitterDups_length]
      rw [ih]
  · induction ls generalizing c with
    | nil => intro d hmem; simp [Entities.jitterAll] at hmem
    | cons e es ih =>
      intro d hmem
      simp only [Entities.jitterAll, List.mem_append] at hmem
      rcases hmem with hmem | hmem
      · have hde : 0 ≤ e.deviance := hd e (by simp)
        have hk : 1 ≤ (e.samples - 1).toNat := by
          rcases Nat.eq_zero_or_pos (e.samples - 1).toNat with h0 | h1
          · rw [Entities.JitterEntity, h0] at hmem
            simp [Entities.jitterDups] at hmem
          · exact h1
        obtain ⟨h1, h2, h3, h4, h5, h6, h7, h8, h9⟩ :=
          jitterDups_mem ext e hr hde _ _ d hmem
        exact ⟨h1, e, by simp, by omega, h2, h3, h4, h5, h6, h7, h8, h9⟩
      · obtain ⟨h1, e', he', rest⟩ := ih _ (fun x hx => hd x (by simp [hx])) d hmem
        exact ⟨h1, e', by simp [he'], rest⟩

theorem c6_witness :
    (Entities.jitterAll extHalf 0 [{ lightT0 with samples := 4, deviance := 8 }]).1.length = 3 := by
  have h := (c6_jitter_duplicates extHalf
    (by intro n; constructor <;> norm_num [extHalf, ext0])
    0 [{ lightT0 with samples := 4, deviance := 8 }]
    (by intro e he; simp at he; subst he; norm_num)).2.2.1
  rw [h]
  decide

theorem pis_r_complete (bsp : MBsp) (point : Vec3) :
    ∀ fuel (n : ℤ), BspUtils.Light_PointInSolid_r bsp fuel n point = .ok true →
      SolidReach bsp point n := by
  intro fuel
  induction fuel with
  | zero => intro n h; exact absurd h (by simp [BspUtils.Light_PointInSolid_r])
  | succ f ih =>
    intro n h
    unfold BspUtils.Light_PointInSolid_r at h
    dsimp only at h
    split at h
    · rename_i hneg
      unfold BspUtils.BSP_GetLeafFromNodeNum BspUtils.BSP_GetLeaf at h
      by_cases hrange : -1 - n < 0 ∨ (bsp.dleafs.length : ℤ) ≤ -1 - n
      · rw [if_pos hrange] at h
        exact absurd h (by simp)
      · rw [if_neg hrange] at h
        simp only [Except.ok.injEq] at h
        push_neg at hrange
        exact SolidReach.leaf n hneg (by omega) h
    · rename_i hneg
      split at h
      · exact SolidReach.front n (by omega) (by assumption) (ih _ h)
      · split at h
        · exact SolidReach.back n (by omega) (by assumption) (ih _ h)
        · rename_i h1 h2
          cases ha : BspUtils.Light_PointInSolid_r bsp f
              (listGetZ bsp.dnodes n dnode0).children0 point with
          | error e => rw [ha] at h; exact absurd h (by simp)
          | ok a =>
            cases hb : BspUtils.Light_PointInSolid_r bsp f
                (listGetZ bsp.dnodes n dnode0).children1 point with
            | error e => rw [ha, hb] at h; exact absurd h (by simp)
            | ok b =>
              rw [ha, hb] at h
              simp only [Except.ok.injEq] at h
              rcases Bool.or_eq_true_iff.mp h with hl | hr2
              · exact SolidReach.straddle0 n (by omega) h1 h2 (ih _ (hl ▸ ha))
              · exact SolidReach.straddle1 n (by omega) h1 h2 (ih _ (hr2 ▸ hb))

theorem pis_r_sound (bsp : MBsp) (point : Vec3) :
    ∀ fuel (n : ℤ) (b : Bool), BspUtils.Light_PointInSolid_r bsp fuel n point = .ok b →
      SolidReach bsp point n → b = true := by
  intro fuel
  induction fuel with
  | zero => intro n b h _; exact absurd h (by simp [BspUtils.Light_PointInSolid_r])
  | succ f ih =>
    intro n b h hreach
    unfold BspUtils.Light_PointInSolid_r at h
    dsimp only at h
    cases hreach with
    | leaf _ hneg hrange hsolid =>
      rw [if_pos hneg] at h
      unfold BspUtils.BSP_GetLeafFromNodeNum BspUtils.BSP_GetLeaf at h
      rw [if_neg (by omega)] at h
      simp only [Except.ok.injEq] at h
      rw [← h, hsolid]
    | front _ hpos hdist hr =>
      rw [if_neg (by omega), if_pos hdist] at h
      exact ih _ _ h hr
    | back _ hpos hdist hr =>
      rw [if_neg (by omega), if_neg (by linarith), if_pos hdist] at h
      exact ih _ _ h hr
    | straddle0 _ hpos hd1 hd2 hr =>
      rw [if_neg (by omega), if_neg hd1, if_neg hd2] at h
      cases ha : BspUtils.Light_PointInSolid_r bsp f
          (listGetZ bsp.dnodes n dnode0).children0 point with
      | error e => rw [ha] at h; exact absurd h (by simp)
      | ok a =>
        cases hb : BspUtils.Light_PointInSolid_r bsp f
            (listGetZ bsp.dnodes n dnode0).children1 point with
        | error e => rw [ha, hb] at h; exact absurd h (by simp)
        | ok b2 =>
          rw [ha, hb] at h
          simp only [Except.ok.injEq] at h
          have : a = true := ih _ _ ha hr
          rw [← h, this, Bool.true_or]
    | straddle1 _ hpos hd1 hd2 hr =>
      rw [if_neg (by omega), if_neg hd1, if_neg hd2] at h
      cases ha : BspUtils.Light_PointInSolid_r bsp f
          (listGetZ bsp.dnodes n dnode0).children0 point with
      | error e => rw [ha] at h; exact absurd h (by simp)
      | ok a =>
        cases hb : BspUtils.Light_PointInSolid_r bsp f
            (listGetZ bsp.dnodes n dnode0).children1 point with
        | error e => rw [ha, hb] at h; exact absurd h (by simp)
        | ok b2 =>
          rw [ha, hb] at h
          simp only [Except.ok.injEq] at h
          have : b2 = true := ih _ _ hb hr
          rw [← h, this, Bool.or_true]

/-- C9: Light_PointInSolid returns false for points outside the model
AABB; inside, it returns true exactly when the ±0.1 BSP descent from the
model headnode reaches a solid leaf (Q2: contents & SOLID; Q1: contents
SOLID or SKY). -/
theorem c9_point_in_solid (bsp : MBsp) (model : DModel) (fuel : ℕ) (point : Vec3)
    (b : Bool) (hrun : BspUtils.Light_PointInSolid bsp model fuel point = .ok b) :
    b = true ↔
      (BspUtils.pointInModelBounds model point = true ∧
        SolidReach bsp point model.headnode) := by
  unfold BspUtils.Light_PointInSolid at hrun
  split at hrun
  · rename_i hbounds
    constructor
    · intro hb
      exact ⟨hbounds, pis_r_complete bsp point fuel model.headnode (hb ▸ hrun)⟩
    · rintro ⟨-, hreach⟩
      exact pis_r_sound bsp point fuel model.headnode b hrun hreach
  · rename_i hbounds
    have hb : false = b := Except.ok.inj hrun
    rw [← hb]
    simp [hbounds]

theorem c9_witness :
    BspUtils.pointInModelBounds modelW ⟨5, 0, 0⟩ = true ∧
      SolidReach bspW ⟨5, 0, 0⟩ modelW.headnode :=
  (c9_point_in_solid bspW modelW 3 ⟨5, 0, 0⟩ true (by
    norm_num [BspUtils.Light_PointInSolid, BspUtils.Light_PointInSolid_r,
      BspUtils.pointInModelBounds, BspUtils.BSP_GetLeafFromNodeNum, BspUtils.BSP_GetLeaf,
      BspUtils.leafContentsSolid, distanceToFast, Plane_Dist, listGetZ, bspW, modelW,
      dnode0, dplane0, mleaf0, CONTENTS_SOLID, CONTENTS_SKY, v3dot])).mp rfl

theorem addSun_fields (ext : Ext) (g : Globals) (suns : List SunT) (v : Vec3) (q : ℚ)
    (color : Vec3) (dirtInt : ℤ) :
    Entities.AddSun ext g suns v q color dirtInt =
      suns ++ [{ sunvec := v3scale (-16384) (ext.normalizeF v), sunlight := q,
                 sunlight_color := color, anglescale := g.global_anglescale,
                 dirt := Entities.Dirt_ResolveFlag g dirtInt }] := rfl

theorem addSun_head (ext : Ext) (g : Globals) (suns : List SunT) (v : Vec3) (q : ℚ)
    (color : Vec3) (dirtInt : ℤ) :
    ∃ hd, Entities.AddSun ext g suns v q color dirtInt = suns ++ [hd] ∧
      hd.sunlight = q ∧ hd.sunlight_color = color :=
  ⟨_, rfl, rfl, rfl⟩

theorem skyDomeAngleLoop_spec (ext : Ext) (g : Globals) (s2 s3 elev astep : ℚ)
    (h2 : s2 > 0) (h3 : ¬ s3 > 0) :
    ∀ (j : ℕ) (angle : ℚ) (suns : List SunT),
      ∃ tail, (Entities.skyDomeAngleLoop ext g s2 s3 elev astep j angle suns).1 = suns ++ tail ∧
        tail.length = j ∧
        ∀ x ∈ tail, x.sunlight = s2 ∧ x.sunlight_color = g.sunlight2_color := by
  intro j
  induction j with
  | zero => intro angle suns; exact ⟨[], by simp [Entities.skyDomeAngleLoop], rfl, by simp⟩
  | succ n ih =>
    intro angle suns
    unfold Entities.skyDomeAngleLoop
    dsimp only
    rw [if_pos h2, if_neg h3]
    obtain ⟨hd, haddeq, hhd1, hhd2⟩ := addSun_head ext g suns
      ⟨ext.cosF angle * ext.cosF elev, ext.sinF angle * ext.cosF elev, -ext.sinF elev⟩
      s2 g.sunlight2_color g.sunlight2_dirt
    rw [haddeq]
    obtain ⟨tail, heq, hlen, hmem⟩ := ih (angle + astep) (suns ++ [hd])
    refine ⟨hd :: tail, ?_, by simp [hlen], ?_⟩
    · rw [heq]
      simp
    · intro x hx
      rcases List.mem_cons.mp hx with rfl | hx
      · exact ⟨hhd1, hhd2⟩
      · exact hmem x hx

theorem skyDomeElevationLoop_spec (ext : Ext) (g : Globals) (s2 s3 astep estep : ℚ)
    (es : ℕ) (h2 : s2 > 0) (h3 : ¬ s3 > 0) :
    ∀ (i : ℕ) (elev angle : ℚ) (suns : List SunT),
      ∃ tail, Entities.skyDomeElevationLoop ext g s2 s3 astep estep es i elev angle suns =
          suns ++ tail ∧
        tail.length = i * (4 * es) ∧
        ∀ x ∈ tail, x.sunlight = s2 ∧ x.sunlight_color = g.sunlight2_color := by
  intro i
  induction i with
  | zero =>
    intro elev angle suns
    exact ⟨[], by simp [Entities.skyDomeElevationLoop], by simp, by simp⟩
  | succ n ih =>
    intro elev angle suns
    unfold Entities.skyDomeElevationLoop
    dsimp only
    obtain ⟨tail1, heq1, hlen1, hmem1⟩ := skyDomeAngleLoop_spec ext g s2 s3 elev astep h2 h3
      (4 * es) angle suns
    rw [heq1]
    obtain ⟨tail2, heq2, hlen2, hmem2⟩ := ih (elev + estep)
      ((Entities.skyDomeAngleLoop ext g s2 s3 elev astep (4 * es) angle suns).2 + astep / es)
      (suns ++ tail1)
    refine ⟨tail1 ++ tail2, by rw [heq2, List.append_assoc], ?_, ?_⟩
    · simp [hlen1, hlen2]
      ring
    · intro x hx
      rcases List.mem_append.mp hx with hx | hx
      · exact hmem1 x hx
      · exact hmem2 x hx

theorem sunlight_sum_const (q : ℚ) :
    ∀ l : List SunT, (∀ s ∈ l, s.sunlight = q) → (l.map SunT.sunlight).sum = l.length * q := by
  intro l
  induction l with
  | nil => intro _; simp
  | cons a as ih =>
    intro h
    simp only [List.map_cons, List.sum_cons, List.length_cons, h a (by simp)]
    rw [ih (fun s hs => h s (by simp [hs]))]
    push_cast
    ring

theorem skyDomeNumSuns_pos (n : ℕ) : 0 < Entities.skyDomeNumSuns n :=
  Nat.succ_pos _

/-- The full behaviour of SetupSkyDome for a positive upper-dome intensity
and non-positive lower-dome intensity. -/
theorem setupSkyDome_upper (ext : Ext) (g : Globals) (suns : List SunT)
    (hL : 0 < g.sunlight2) (h3 : g.sunlight3 ≤ 0) :
    ∃ tail, Entities.SetupSkyDome ext g suns = suns ++ tail ∧
      tail.length = Entities.skyDomeNumSuns g.sunsamples ∧
      (∀ s ∈ tail, s.sunlight = g.sunlight2 / (Entities.skyDomeNumSuns g.sunsamples : ℚ) ∧
        s.sunlight_color = g.sunlight2_color) ∧
      (tail.map SunT.sunlight).sum = g.sunlight2 := by
  unfold Entities.SetupSkyDome
  dsimp only
  rw [if_neg (by push_neg; intro hc; exact absurd hL (by linarith))]
  set es := Entities.skyDomeIterations g.sunsamples - 1 with hes
  have hNum : Entities.skyDomeNumSuns g.sunsamples = es * 4 * es + 1 := rfl
  have hNpos : (0 : ℚ) < ((es * 4 * es + 1 : ℕ) : ℚ) := by positivity
  have h2v : g.sunlight2 / ((es * 4 * es + 1 : ℕ) : ℚ) > 0 := div_pos hL hNpos
  have h3v : ¬ g.sunlight3 / ((es * 4 * es + 1 : ℕ) : ℚ) > 0 := by
    push_neg
    exact div_nonpos_of_nonpos_of_nonneg h3 hNpos.le
  rw [if_neg h3v, if_pos h2v]
  obtain ⟨tail1, heq1, hlen1, hmem1⟩ := skyDomeElevationLoop_spec ext g
    (g.sunlight2 / ((es * 4 * es + 1 : ℕ) : ℚ)) (g.sunlight3 / ((es * 4 * es + 1 : ℕ) : ℚ))
    (Entities.deg2rad ext (360 / ((es * 4 : ℕ) : ℚ)))
    (Entities.deg2rad ext (90 / ((es : ℚ) + 1)))
    es h2v h3v es
    (Entities.deg2rad ext (90 / ((es : ℚ) + 1)) * (1/2)) 0 suns
  rw [heq1]
  obtain ⟨hd, haddeq, hhd1, hhd2⟩ := addSun_head ext g (suns ++ tail1) ⟨0, 0, 1⟩
    (g.sunlight2 / ((es * 4 * es + 1 : ℕ) : ℚ)) g.sunlight2_color g.sunlight2_dirt
  rw [haddeq]
  have hmem : ∀ x ∈ tail1 ++ [hd],
      x.sunlight = g.sunlight2 / (Entities.skyDomeNumSuns g.sunsamples : ℚ) ∧
        x.sunlight_color = g.sunlight2_color := by
    intro x hx
    rw [hNum]
    rcases List.mem_append.mp hx with hx | hx
    · exact hmem1 x hx
    · rcases List.mem_singleton.mp hx with rfl
      exact ⟨hhd1, hhd2⟩
  have hlen : (tail1 ++ [hd]).length = Entities.skyDomeNumSuns g.sunsamples := by
    rw [hNum]
    simp [hlen1]
    ring
  refine ⟨tail1 ++ [hd], by rw [List.append_assoc], hlen, hmem, ?_⟩
  rw [sunlight_sum_const _ _ (fun x hx => (hmem x hx).1), hlen, hNum]
  rw [mul_div_cancel₀ _ (ne_of_gt hNpos)]

/-- The claim's iteration formula, read with exact real division and
rounding, agrees with the computable claimSkyDomeIterations. -/
theorem claimSkyDomeIterations_eq_round (s : ℕ) :
    (claimSkyDomeIterations s : ℤ) = max (round (Real.sqrt (((s - 1 : ℕ) : ℝ) / 4)) + 1) 2 := by
  set q := s - 1 with hq
  have h2 : Real.sqrt 4 = 2 := by
    rw [show (4 : ℝ) = 2 ^ 2 by norm_num, Real.sqrt_sq (by norm_num : (0 : ℝ) ≤ 2)]
  have h4 : Real.sqrt ((q : ℝ) / 4) = Real.sqrt q / 2 := by
    rw [Real.sqrt_div (by positivity) 4, h2]
  have hhalf : Real.sqrt q / 2 + 1 / 2 = (Real.sqrt q + 1) / 2 := by ring
  have hfloor : ⌊(Real.sqrt (q : ℝ) + 1) / 2⌋ = (((Nat.sqrt q + 1) / 2 : ℕ) : ℤ) := by
    set r := Nat.sqrt q with hr
    have hk1 : 2 * ((r + 1) / 2) ≤ r + 1 := by omega
    have hk2 : r ≤ 2 * ((r + 1) / 2) := by omega
    have hs1 : ((r : ℝ)) ≤ Real.sqrt q := Real.nat_sqrt_le_real_sqrt
    have hs2 : Real.sqrt (q : ℝ) < r + 1 := Real.real_sqrt_lt_nat_sqrt_succ
    have hc1 : (2 : ℝ) * (((r + 1) / 2 : ℕ) : ℝ) ≤ (r : ℝ) + 1 := by
      exact_mod_cast hk1
    have hc2 : ((r : ℝ)) ≤ 2 * (((r + 1) / 2 : ℕ) : ℝ) := by
      exact_mod_cast hk2
    rw [Int.floor_eq_iff]
    constructor
    · rw [Int.cast_natCast]
      linarith
    · rw [Int.cast_natCast]
      linarith
  rw [h4, round_eq, hhalf, hfloor]
  unfold claimSkyDomeIterations
  push_cast [Nat.cast_max]
  rfl

/-- C1 (amended): with the source's integer-division iteration count, a
positive _sunlight2 of L and non-positive _sunlight3, SetupSkyDome appends
exactly N = 4·(iterations-1)² + 1 suns, each of intensity L/N and of the
upper-dome colour, and their intensities sum exactly to L. -/
theorem c1_skydome_suns (ext : Ext) (g : Globals) (suns : List SunT)
    (hL : 0 < g.sunlight2) (h3 : g.sunlight3 ≤ 0) :
    ∃ tail, Entities.SetupSkyDome ext g suns = suns ++ tail ∧
      tail.length = Entities.skyDomeNumSuns g.sunsamples ∧
      (∀ s ∈ tail, s.sunlight = g.sunlight2 / (Entities.skyDomeNumSuns g.sunsamples : ℚ) ∧
        s.sunlight_color = g.sunlight2_color) ∧
      (tail.map SunT.sunlight).sum = g.sunlight2 :=
  setupSkyDome_upper ext g suns hL h3

/-- C1 counterexample: at sunsamples = 10 the code emits 5 suns while the
claim's formula (real division) demands 17. -/
theorem c1_counterexample :
    (Entities.SetupSkyDome ext0 { globals0 with sunlight2 := 100, sunsamples := 10 } []).length
        = 5 ∧
      claimSkyDomeNumSuns 10 = 17 ∧ (5 : ℕ) ≠ 17 := by
  refine ⟨?_, ?_, by decide⟩
  · obtain ⟨tail, heq, hlen, -, -⟩ := setupSkyDome_upper ext0
      { globals0 with sunlight2 := 100, sunsamples := 10 } [] (by norm_num) (by norm_num [globals0])
    rw [heq]
    simp only [List.nil_append, hlen]
    unfold Entities.skyDomeNumSuns Entities.skyDomeIterations Entities.rintSqrtNat
    norm_num
  · unfold claimSkyDomeNumSuns claimSkyDomeIterations
    norm_num

theorem c1_witness :
    (Entities.SetupSkyDome ext0 { globals0 with sunlight2 := 100, sunsamples := 16 } []).length
      = 17 := by
  obtain ⟨tail, heq, hlen, -, -⟩ := c1_skydome_suns ext0
    { globals0 with sunlight2 := 100, sunsamples := 16 } [] (by norm_num) (by norm_num [globals0])
  rw [heq]
  simp only [List.nil_append, hlen]
  unfold Entities.skyDomeNumSuns Entities.skyDomeIterations Entities.rintSqrtNat
  norm_num

theorem optMapM_length (f : α → Option β) :
    ∀ (l : List α) (l' : List β), optMapM f l = some l' → l'.length = l.length := by
  intro l
  induction l with
  | nil =>
    intro l' h
    simp only [optMapM, Option.some.injEq] at h
    rw [← h]
    rfl
  | cons a as ih =>
    intro l' h
    unfold optMapM at h
    cases hf : f a with
    | none => rw [hf] at h; exact absurd h (by simp)
    | some b =>
      rw [hf] at h
      cases hm : optMapM f as with
      | none => rw [hm] at h; exact absurd h (by simp)
      | some l'' =>
        rw [hm] at h
        simp only [Option.map_some', Option.some.injEq] at h
        rw [← h]
        simp [ih l'' hm]

/-- C7: the pipeline stages after jittering neither add to nor remove
from all_lights: the final light count equals the count right after
JitterEntities. -/
theorem c7_pipeline_size (ext : Ext) (g : Globals) (bsp : MBsp)
    (fuel rejFuel c : ℕ) (entdicts : List EntDict) (lights0 : List LightT)
    (suns0 : List SunT) (l1 tmpls : List LightT) (out : List LightT × List SunT)
    (hm : Entities.MakeSurfaceLights ext bsp g.surflight_subdivide fuel lights0 =
      .ok (l1, tmpls))
    (hrun : Entities.SetupLights ext g bsp fuel rejFuel c entdicts lights0 suns0 = .ok out) :
    out.1.length = (Entities.JitterEntities ext c l1).1.length := by
  unfold Entities.SetupLights at hrun
  rw [hm] at hrun
  dsimp only at hrun
  cases hsuns : Entities.SetupSuns ext g rejFuel (Entities.JitterEntities ext c l1).2 suns0 with
  | none => rw [hsuns] at hrun; exact absurd hrun (by simp)
  | some p =>
    obtain ⟨suns1, c2⟩ := p
    rw [hsuns] at hrun
    dsimp only at hrun
    cases hfix : Entities.FixLightsOnFaces bsp fuel
        (Entities.SetupSpotlights ext entdicts
          (Entities.MatchTargets entdicts (Entities.JitterEntities ext c l1).1)) with
    | none => rw [hfix] at hrun; exact absurd hrun (by simp)
    | some l5 =>
      rw [hfix] at hrun
      dsimp only at hrun
      cases hleaf : Entities.SetupLightLeafnums bsp fuel l5 with
      | none => rw [hleaf] at hrun; exact absurd hrun (by simp)
      | some l6 =>
        rw [hleaf] at hrun
        simp only [Except.ok.injEq] at hrun
        have h6 : l6.length = l5.length := optMapM_length _ _ _ hleaf
        have h5 : l5.length = (Entities.SetupSpotlights ext entdicts
            (Entities.MatchTargets entdicts (Entities.JitterEntities ext c l1).1)).length :=
          optMapM_length _ _ _ hfix
        rw [← hrun]
        dsimp only
        rw [h6, h5]
        unfold Entities.SetupSpotlights Entities.MatchTargets
        simp

theorem c7_witness :
    (([] : List LightT),
        [(⟨⟨0, 0, 16384⟩, 0, ⟨255, 255, 255⟩, 1, false⟩ : SunT)]).1.length =
      (Entities.JitterEntities ext0 0 []).1.length := by
  have h1 : Entities.MakeSurfaceLights ext0 bspW globals0.surflight_subdivide 2 [] =
      .ok ([], []) := rfl
  have h2 : Entities.SetupSuns ext0 globals0 1 (Entities.JitterEntities ext0 0 []).2 [] =
      some ([(⟨⟨0, 0, 16384⟩, 0, ⟨255, 255, 255⟩, 1, false⟩ : SunT)], 0) := by
    unfold Entities.SetupSuns Entities.SetupSun
    norm_num [globals0, ext0, Entities.AddSun, Entities.Dirt_ResolveFlag, v3scale,
      Entities.sunSamplesLoop, Entities.JitterEntities, Entities.jitterAll]
  have h3 : Entities.SetupLights ext0 globals0 bspW 2 1 0 [] [] [] =
      .ok ([], [(⟨⟨0, 0, 16384⟩, 0, ⟨255, 255, 255⟩, 1, false⟩ : SunT)]) := by
    unfold Entities.SetupLights
    rw [h1]
    dsimp only
    rw [h2]
    dsimp only
    rw [show Entities.SetupSkyDome ext0 globals0
        [(⟨⟨0, 0, 16384⟩, 0, ⟨255, 255, 255⟩, 1, false⟩ : SunT)] =
        [(⟨⟨0, 0, 16384⟩, 0, ⟨255, 255, 255⟩, 1, false⟩ : SunT)] from by
      unfold Entities.SetupSkyDome
      dsimp only
      rw [if_pos]
      exact ⟨by norm_num [globals0], by norm_num [globals0]⟩]
    rfl
  exact c7_pipeline_size ext0 globals0 bspW 2 1 0 [] [] [] [] [] _ h1 h3

theorem skipSpaces_cons_space {c : Char} (hc : isSpaceCh c = true) (l : List Char) :
    skipSpaces (c :: l) = skipSpaces l := by
  simp [skipSpaces, hc]

theorem skipSpaces_cons_nonspace {c : Char} (hc : isSpaceCh c = false) (l : List Char) :
    skipSpaces (c :: l) = c :: l := by
  simp [skipSpaces, hc]

theorem readQuoted_append {k : List Char} (hk : dquote ∉ k) (rest : List Char) :
    readQuoted (k ++ dquote :: rest) = (k, rest) := by
  induction k with
  | nil => simp [readQuoted]
  | cons c cs ih =>
    have hc : c ≠ dquote := fun h => hk (by simp [h])
    have ihk : dquote ∉ cs := fun h => hk (by simp [h])
    simp [readQuoted, hc, ih ihk]

theorem COM_Parse_cons_space {c : Char} (hc : isSpaceCh c = true) (l : List Char) :
    COM_Parse (c :: l) = COM_Parse l := by
  unfold COM_Parse
  rw [skipSpaces_cons_space hc]

theorem COM_Parse_quoted {k : List Char} (hk : dquote ∉ k) (rest : List Char) :
    COM_Parse (dquote :: (k ++ dquote :: rest)) = some (k, rest) := by
  unfold COM_Parse
  rw [skipSpaces_cons_nonspace (by decide)]
  dsimp only
  rw [if_pos rfl, readQuoted_append hk]

theorem COM_Parse_lbrace (l : List Char) :
    COM_Parse (lbrace :: l) = some ([lbrace], l) := by
  unfold COM_Parse
  rw [skipSpaces_cons_nonspace (by decide)]
  dsimp only
  rw [if_neg (by decide), if_pos (Or.inl rfl)]

theorem COM_Parse_rbrace (l : List Char) :
    COM_Parse (rbrace :: l) = some ([rbrace], l) := by
  unfold COM_Parse
  rw [skipSpaces_cons_nonspace (by decide)]
  dsimp only
  rw [if_neg (by decide), if_pos (Or.inr rfl)]

theorem edSet_append {d : EntDict} {k : CStr} (hk : k ∉ d.map Prod.fst) (v : CStr) :
    edSet d k v = d ++ [(k, v)] := by
  induction d with
  | nil => rfl
  | cons kv rest ih =>
    have h1 : kv.1 ≠ k := fun h => hk (by simp [h])
    have h2 : k ∉ rest.map Prod.fst := fun h => hk (by simp [h])
    simp only [edSet]
    rw [if_neg h1, ih h2]
    simp

theorem goodStr_not_dquote {k : CStr} (h : goodStr k = true) : dquote ∉ k := by
  intro hmem
  have := List.all_eq_true.mp h dquote hmem
  simp [goodChar] at this

theorem goodStr_ne_rbrace_singleton {k : CStr} (h : goodStr k = true) : k ≠ [rbrace] := by
  intro heq
  have := List.all_eq_true.mp h rbrace (by simp [heq])
  simp [goodChar] at this

theorem goodStr_head_ne_rbrace {v : CStr} (h : goodStr v = true) :
    v.head? ≠ some rbrace := by
  cases v with
  | nil => simp
  | cons c cs =>
    have := List.all_eq_true.mp h c (by simp)
    simp only [List.head?_cons, ne_eq, Option.some.injEq]
    intro heq
    subst heq
    simp [goodChar] at this

theorem parsePairs_cons_space {c : Char} (hc : isSpaceCh c = true) (fuel : ℕ)
    (l : List Char) (acc : EntDict) :
    parsePairs fuel (c :: l) acc = parsePairs fuel l acc := by
  cases fuel with
  | zero => rfl
  | succ f =>
    unfold parsePairs
    rw [COM_Parse_cons_space hc]

theorem parseEnts_cons_space {c : Char} (hc : isSpaceCh c = true) (fuel : ℕ)
    (l : List Char) (res : List EntDict) :
    parseEnts fuel (c :: l) res = parseEnts fuel l res := by
  cases fuel with
  | zero => rfl
  | succ f =>
    unfold parseEnts
    rw [COM_Parse_cons_space hc]

theorem parsePairs_write :
    ∀ (e : EntDict) (acc : EntDict) (rest : List Char) (fuel : ℕ),
      e.length < fuel →
      (∀ kv ∈ e, goodStr kv.1 = true ∧ kv.1.length ≤ 31 ∧
        goodStr kv.2 = true ∧ kv.2.length ≤ 1023) →
      (((acc ++ e).map Prod.fst).Nodup) →
      parsePairs fuel (e.flatMap writePair ++ rbrace :: newlineCh :: rest) acc =
        .ok (acc ++ e, newlineCh :: rest) := by
  intro e
  induction e with
  | nil =>
    intro acc rest fuel hfuel _ _
    cases fuel with
    | zero => omega
    | succ f =>
      unfold parsePairs
      simp only [List.flatMap_nil, List.nil_append, COM_Parse_rbrace]
      simp
  | cons kv e' ih =>
    intro acc rest fuel hfuel hgood hnodup
    obtain ⟨hgk, hk31, hgv, hv1023⟩ := hgood kv (by simp)
    cases fuel with
    | zero => omega
    | succ f =>
      have hdata : (kv :: e').flatMap writePair ++ rbrace :: newlineCh :: rest =
          dquote :: (kv.1 ++ dquote :: (spaceCh :: (dquote :: (kv.2 ++ dquote ::
            (newlineCh :: (e'.flatMap writePair ++ rbrace :: newlineCh :: rest)))))) := by
        simp [writePair, List.append_assoc]
      unfold parsePairs
      rw [hdata, COM_Parse_quoted (goodStr_not_dquote hgk)]
      dsimp only
      rw [if_neg (goodStr_ne_rbrace_singleton hgk)]
      rw [if_neg (by unfold maxEntKeyLen; omega)]
      rw [COM_Parse_cons_space (by decide), COM_Parse_quoted (goodStr_not_dquote hgv)]
      dsimp only
      rw [if_neg (goodStr_head_ne_rbrace hgv)]
      rw [if_neg (by unfold maxEntValueLen; omega)]
      rw [parsePairs_cons_space (by decide)]
      have hknotin : kv.1 ∉ acc.map Prod.fst := by
        intro hmem
        rw [List.map_append, List.nodup_append] at hnodup
        exact hnodup.2.2 hmem (by simp)
      rw [show edSet acc kv.1 kv.2 = acc ++ [kv] from by
        rw [edSet_append hknotin]]
      rw [ih (acc ++ [kv]) rest f (by simp at hfuel ⊢; omega)
        (fun x hx => hgood x (by simp [hx]))
        (by rw [List.append_assoc]; simpa using hnodup)]
      simp

theorem length_le_flatMap_writePair (e : EntDict) :
    e.length ≤ (e.flatMap writePair).length := by
  induction e with
  | nil => simp
  | cons kv e' ih =>
    simp only [List.flatMap_cons, List.length_append, List.length_cons]
    have : 1 ≤ (writePair kv).length := by
      simp [writePair]
    omega

theorem length_le_write (es : List EntDict) :
    es.length ≤ (entData_Write es).length := by
  induction es with
  | nil => simp [entData_Write]
  | cons e es' ih =>
    unfold entData_Write at ih ⊢
    simp only [List.flatMap_cons, List.length_append, List.length_cons]
    have : 1 ≤ (writeEnt e).length := by
      simp [writeEnt]
    omega

theorem parseEnts_write :
    ∀ (es : List EntDict) (res : List EntDict) (fuel : ℕ),
      es.length < fuel →
      (∀ d ∈ es, ((d.map Prod.fst).Nodup) ∧
        ∀ kv ∈ d, goodStr kv.1 = true ∧ kv.1.length ≤ 31 ∧
          goodStr kv.2 = true ∧ kv.2.length ≤ 1023) →
      parseEnts fuel (entData_Write es) res = .ok (res ++ es) := by
  intro es
  induction es with
  | nil =>
    intro res fuel hfuel _
    cases fuel with
    | zero => omega
    | succ f =>
      unfold parseEnts entData_Write
      simp [COM_Parse, skipSpaces]
  | cons e es' ih =>
    intro res fuel hfuel hcond
    obtain ⟨hnd, hgood⟩ := hcond e (by simp)
    cases fuel with
    | zero => omega
    | succ f =>
      have hdata : entData_Write (e :: es') =
          lbrace :: (newlineCh ::
            (e.flatMap writePair ++ rbrace :: newlineCh :: entData_Write es')) := by
        unfold entData_Write writeEnt
        simp [List.append_assoc]
      unfold parseEnts
      rw [hdata, COM_Parse_lbrace]
      dsimp only
      rw [if_neg (by simp)]
      rw [parsePairs_cons_space (by decide)]
      rw [parsePairs_write e [] (entData_Write es') _
        (by
          have h1 := length_le_flatMap_writePair e
          simp only [List.length_cons, List.length_append]
          omega)
        hgood (by simpa using hnd)]
      dsimp only
      simp only [List.nil_append]
      rw [parseEnts_cons_space (by decide)]
      rw [ih (res ++ [e]) f (by simp at hfuel ⊢; omega)
        (fun d hd => hcond d (by simp [hd]))]
      simp

/-- C5 (amended): serialize-then-parse is the identity on entity dict
lists whose keys and values avoid backslash, quote and braces AND respect
the parser's fatal length bounds (keys at most 31 chars, values at most
1023). -/
theorem c5_roundtrip (es : List EntDict)
    (hcond : ∀ d ∈ es, ((d.map Prod.fst).Nodup) ∧
      ∀ kv ∈ d, goodStr kv.1 = true ∧ kv.1.length ≤ 31 ∧
        goodStr kv.2 = true ∧ kv.2.length ≤ 1023) :
    entData_Parse (entData_Write es) = .ok es := by
  unfold entData_Parse
  rw [parseEnts_write es [] ((entData_Write es).length + 1)
    (Nat.lt_succ_of_le (length_le_write es)) hcond]
  simp

/-- C5 counterexample: a single dict with a 32-character key (containing
no excluded character) does not round-trip; parsing is a fatal key-length
error. -/
theorem c5_counterexample :
    entData_Parse (entData_Write [[(List.replicate 32 'k', ['v'])]]) = .error .keyLen ∧
      goodStr (List.replicate 32 'k') = true ∧ goodStr ['v'] = true ∧
      Except.error PErr.keyLen ≠
        (.ok [[(List.replicate 32 'k', ['v'])]] : Except PErr (List EntDict)) := by
  refine ⟨by decide, by decide, by decide, by decide⟩

theorem c5_witness :
    entData_Parse (entData_Write [[("classname".toList, "worldspawn".toList)],
        [("a".toList, "b c".toList)]]) =
      .ok [[("classname".toList, "worldspawn".toList)], [("a".toList, "b c".toList)]] :=
  c5_roundtrip _ (by decide)

/- ### C2: switchable light styles -/

theorem regLookup_mem {reg : List CStr} {tn : CStr} {i : ℕ}
    (h : regLookup reg tn = some i) : tn ∈ reg := by
  induction reg generalizing i with
  | nil => simp [regLookup] at h
  | cons n rest ih =>
    unfold regLookup at h
    by_cases hn : n = tn
    · rw [hn]; exact List.mem_cons_self _ _
    · rw [if_neg hn] at h
      obtain ⟨j, hj, -⟩ := Option.map_eq_some'.mp h
      exact List.mem_cons_of_mem _ (ih hj)

theorem regLookup_append {reg : List CStr} {tn : CStr} {i : ℕ}
    (h : regLookup reg tn = some i) (app : List CStr) :
    regLookup (reg ++ app) tn = some i := by
  induction reg generalizing i with
  | nil => simp [regLookup] at h
  | cons n rest ih =>
    unfold regLookup at h ⊢
    rw [List.cons_append]
    dsimp only
    by_cases hn : n = tn
    · rw [if_pos hn] at h ⊢; exact h
    · rw [if_neg hn] at h ⊢
      obtain ⟨j, hj, hji⟩ := Option.map_eq_some'.mp h
      rw [ih hj]
      simpa using hji

theorem regLookup_self {reg : List CStr} {tn : CStr}
    (h : regLookup reg tn = none) :
    regLookup (reg ++ [tn]) tn = some reg.length := by
  induction reg with
  | nil => simp [regLookup]
  | cons n rest ih =>
    unfold regLookup at h ⊢
    rw [List.cons_append]
    dsimp only
    by_cases hn : n = tn
    · rw [if_pos hn] at h; exact absurd h (by simp)
    · rw [if_neg hn] at h ⊢
      rw [Option.map_eq_none'] at h
      rw [ih h]
      simp

theorem regLookup_lt {reg : List CStr} {tn : CStr} {i : ℕ}
    (h : regLookup reg tn = some i) : i < reg.length := by
  induction reg generalizing i with
  | nil => simp [regLookup] at h
  | cons n rest ih =>
    unfold regLookup at h
    by_cases hn : n = tn
    · rw [if_pos hn] at h
      simp only [Option.some.injEq] at h
      simp only [List.length_cons]
      omega
    · rw [if_neg hn] at h
      obtain ⟨j, hj, hji⟩ := Option.map_eq_some'.mp h
      have := ih hj
      have hji2 : j + 1 = i := hji
      simp only [List.length_cons]
      omega

theorem lsft_spec {reg reg' : List CStr} {tn : CStr} {s : ℤ}
    (h : LightStyleForTargetname reg tn = .ok (s, reg')) :
    (∃ app, reg' = reg ++ app) ∧
    (reg.length ≤ 32 → reg'.length ≤ 32) ∧
    ∃ k : ℕ, s = 32 + (k : ℤ) ∧ regLookup reg' tn = some k := by
  unfold LightStyleForTargetname at h
  cases hl : regLookup reg tn with
  | some i =>
    rw [hl] at h
    simp only [Except.ok.injEq, Prod.mk.injEq] at h
    obtain ⟨hs, hr⟩ := h
    subst hr
    exact ⟨⟨[], by simp⟩, fun hh => hh, i, hs.symm, hl⟩
  | none =>
    rw [hl] at h
    by_cases hlen : reg.length = MAX_LIGHT_TARGETS
    · rw [if_pos hlen] at h; exact absurd h (by simp)
    · rw [if_neg hlen] at h
      simp only [Except.ok.injEq, Prod.mk.injEq] at h
      obtain ⟨hs, hr⟩ := h
      subst hr
      refine ⟨⟨[tn], rfl⟩, ?_, reg.length, hs.symm, regLookup_self hl⟩
      intro hh
      unfold MAX_LIGHT_TARGETS at hlen
      simp only [List.length_append, List.length_cons, List.length_nil]
      omega

theorem edFind_cons (a b : CStr) (rest : EntDict) (k : CStr) :
    edFind ((a, b) :: rest) k = if a = k then some b else edFind rest k := rfl

theorem edSet_cons (a b : CStr) (rest : EntDict) (k v : CStr) :
    edSet ((a, b) :: rest) k v =
      if a = k then (k, v) :: rest else (a, b) :: edSet rest k v := rfl

theorem edErase_cons (a b : CStr) (rest : EntDict) (k : CStr) :
    edErase ((a, b) :: rest) k = if a = k then rest else (a, b) :: edErase rest k := rfl

theorem edFind_edSet_self : ∀ (d : EntDict) (k v : CStr),
    edFind (edSet d k v) k = some v
  | [], k, v => by simp [edSet, edFind]
  | (a, b) :: rest, k, v => by
    rw [edSet_cons]
    by_cases hk : a = k
    · rw [if_pos hk, edFind_cons, if_pos rfl]
    · rw [if_neg hk, edFind_cons, if_neg hk]
      exact edFind_edSet_self rest k v

theorem edFind_edSet_ne {k kx v : CStr} (h : kx ≠ k) :
    ∀ d : EntDict, edFind (edSet d kx v) k = edFind d k := by
  intro d
  induction d with
  | nil => simp [edSet, edFind_cons, edFind, h]
  | cons ab rest ih =>
    obtain ⟨a, b⟩ := ab
    rw [edSet_cons]
    by_cases hk : a = kx
    · rw [if_pos hk, edFind_cons, edFind_cons, if_neg h, if_neg (by rw [hk]; exact h)]
    · rw [if_neg hk, edFind_cons, edFind_cons]
      by_cases hak : a = k
      · rw [if_pos hak, if_pos hak]
      · rw [if_neg hak, if_neg hak, ih]

theorem edFind_edErase_ne {k kx : CStr} (h : kx ≠ k) :
    ∀ d : EntDict, edFind (edErase d kx) k = edFind d k := by
  intro d
  induction d with
  | nil => rfl
  | cons ab rest ih =>
    obtain ⟨a, b⟩ := ab
    rw [edErase_cons]
    by_cases hk : a = kx
    · rw [if_pos hk, edFind_cons, if_neg (by rw [hk]; exact h)]
    · rw [if_neg hk, edFind_cons, edFind_cons]
      by_cases hak : a = k
      · rw [if_pos hak, if_pos hak]
      · rw [if_neg hak, if_neg hak, ih]

theorem edFind_escapeDict : ∀ (d : EntDict) (k : CStr),
    edFind (escapeDict d) k = (edFind d k).map (parseEscapes false)
  | [], _ => rfl
  | (a, b) :: rest, k => by
    show edFind ((a, parseEscapes false b) :: escapeDict rest) k = _
    rw [edFind_cons, edFind_cons]
    by_cases hak : a = k
    · rw [if_pos hak, if_pos hak, Option.map_some']
    · rw [if_neg hak, if_neg hak]
      exact edFind_escapeDict rest k

theorem parseEscapes_id : ∀ (l : List Char), (∀ c ∈ l, c ≠ backslashCh) →
    parseEscapes false l = l
  | [], _ => rfl
  | [c], _ => by simp [parseEscapes, boldCh]
  | c :: c2 :: rest2, h => by
    unfold parseEscapes
    dsimp only
    rw [if_neg (fun hand => h c (by simp) hand.1)]
    rw [parseEscapes_id (c2 :: rest2) (fun x hx => h x (List.mem_cons_of_mem _ hx))]
    simp [boldCh]

theorem digitCh_lt (n : ℕ) (h : n < 10) : (digitCh n).toNat < 58 := by
  unfold digitCh
  interval_cases n <;> decide

theorem natToCharsCore_lt : ∀ (fuel n : ℕ) (acc : List Char),
    (∀ c ∈ acc, c.toNat < 58) → ∀ c ∈ natToCharsCore fuel n acc, c.toNat < 58
  | 0, _, _, hacc => hacc
  | fuel + 1, n, acc, hacc => by
    unfold natToCharsCore
    by_cases hn : n < 10
    · rw [if_pos hn]
      intro c hc
      rcases List.mem_cons.mp hc with rfl | hc
      · exact digitCh_lt n hn
      · exact hacc c hc
    · rw [if_neg hn]
      refine natToCharsCore_lt fuel (n / 10) _ ?_
      intro c hc
      rcases List.mem_cons.mp hc with rfl | hc
      · exact digitCh_lt _ (Nat.mod_lt _ (by omega))
      · exact hacc c hc

theorem intToChars_no_bs {s : ℤ} (hs : 0 ≤ s) :
    ∀ c ∈ intToChars s, c ≠ backslashCh := by
  intro c hc heq
  unfold intToChars at hc
  rw [if_neg (by omega)] at hc
  unfold natToChars at hc
  have := natToCharsCore_lt _ _ [] (by simp) c hc
  rw [heq] at this
  revert this
  decide

theorem pass1Rename_find (d : EntDict) {k : CStr}
    (hk1 : k ≠ lmScaleKey) (hk2 : k ≠ lmScaleNewKey) :
    edFind (pass1Rename d) k = edFind d k := by
  unfold pass1Rename
  dsimp only
  split
  · rw [edFind_edSet_ne (Ne.symm hk2), edFind_edErase_ne (Ne.symm hk1)]
  · rfl

theorem qualifies_parts {d : EntDict} (hq : qualifiesSwitchable d = true) :
    lcStartsWith lightWord (entDictStringForKey d classnameKey) = true ∧
    dictTargetname d ≠ [] ∧ edFind d styleKey = none := by
  unfold qualifiesSwitchable at hq
  simp only [Bool.and_eq_true, decide_eq_true_eq, Option.isNone_iff_eq_none] at hq
  exact ⟨hq.1.1, hq.1.2, hq.2⟩

theorem pass1Assign_of_qualifies (ext : Ext) {d : EntDict}
    (hq : qualifiesSwitchable d = true) :
    pass1Assign ext (pass1Rename d) = true := by
  obtain ⟨h1, h2, h3⟩ := qualifies_parts hq
  unfold pass1Assign
  have hcn : entDictStringForKey (pass1Rename d) classnameKey =
      entDictStringForKey d classnameKey := by
    unfold entDictStringForKey
    rw [pass1Rename_find d (by decide) (by decide)]
  have htn : entDictStringForKey (pass1Rename d) targetnameKey = dictTargetname d := by
    unfold dictTargetname entDictStringForKey
    rw [pass1Rename_find d (by decide) (by decide)]
  have hst : entDictStringForKey (pass1Rename d) styleKey = [] := by
    unfold entDictStringForKey
    rw [pass1Rename_find d (by decide) (by decide), h3]
    rfl
  rw [hcn, if_pos h1, decide_eq_true_eq]
  refine ⟨by rw [htn]; exact h2, ?_⟩
  unfold entDictFloatForKey
  dsimp only
  rw [if_pos hst]
  unfold ratTrunc
  rw [if_pos le_rfl]
  exact Int.floor_zero

theorem pass1Dict_ok_reg {ext : Ext} {reg : List CStr} {d dx : EntDict}
    {reg' : List CStr} (h : pass1Dict ext reg d = .ok (dx, reg')) :
    (∃ app, reg' = reg ++ app) ∧ (reg.length ≤ 32 → reg'.length ≤ 32) := by
  unfold pass1Dict at h
  dsimp only at h
  split at h
  · split at h
    · exact absurd h (by simp)
    · rename_i s reg2 heq
      obtain ⟨⟨app, happ⟩, hlen, -⟩ := lsft_spec heq
      simp only [Except.ok.injEq, Prod.mk.injEq] at h
      obtain ⟨-, hr⟩ := h
      subst hr
      exact ⟨⟨app, happ⟩, hlen⟩
  · simp only [Except.ok.injEq, Prod.mk.injEq] at h
    obtain ⟨-, hr⟩ := h
    subst hr
    exact ⟨⟨[], by simp⟩, fun hh => hh⟩

theorem pass1Dict_qualifies {ext : Ext} {reg : List CStr} {d dx : EntDict}
    {reg' : List CStr} (hq : qualifiesSwitchable d = true)
    (h : pass1Dict ext reg d = .ok (dx, reg')) :
    ∃ k : ℕ, regLookup reg' (dictTargetname d) = some k ∧
      entDictStringForKey dx styleKey = intToChars (32 + (k : ℤ)) := by
  have htn : entDictStringForKey (pass1Rename d) targetnameKey = dictTargetname d := by
    unfold dictTargetname entDictStringForKey
    rw [pass1Rename_find d (by decide) (by decide)]
  unfold pass1Dict at h
  dsimp only at h
  rw [pass1Assign_of_qualifies ext hq, if_pos rfl, htn] at h
  split at h
  · exact absurd h (by simp)
  · rename_i s reg2 heq
    obtain ⟨-, -, k, hs, hlook⟩ := lsft_spec heq
    simp only [Except.ok.injEq, Prod.mk.injEq] at h
    obtain ⟨hd, hr⟩ := h
    subst hr hd
    refine ⟨k, hlook, ?_⟩
    unfold entDictStringForKey
    rw [edFind_escapeDict, edFind_edSet_self, Option.map_some', Option.getD_some]
    rw [hs]
    exact parseEscapes_id _ (intToChars_no_bs (by omega))

theorem pass1_spec (ext : Ext) :
    ∀ (ds : List EntDict) (reg : List CStr) (dsx : List EntDict) (regx : List CStr),
      loadEntities_pass1 ext ds reg = .ok (dsx, regx) →
      (∃ app, regx = reg ++ app) ∧
      (reg.length ≤ 32 → regx.length ≤ 32) ∧
      (∀ i, i < ds.length → qualifiesSwitchable (ds.getD i []) = true →
        ∃ k : ℕ, regLookup regx (dictTargetname (ds.getD i [])) = some k ∧
          entDictStringForKey (dsx.getD i []) styleKey = intToChars (32 + (k : ℤ))) ∧
      (∀ d ∈ ds, qualifiesSwitchable d = true → dictTargetname d ∈ regx) := by
  intro ds
  induction ds with
  | nil =>
    intro reg dsx regx h
    unfold loadEntities_pass1 at h
    simp only [Except.ok.injEq, Prod.mk.injEq] at h
    obtain ⟨hd, hr⟩ := h
    subst hr
    refine ⟨⟨[], by simp⟩, fun hh => hh, ?_, ?_⟩
    · intro i hi; simp at hi
    · intro d2 hd2; simp at hd2
  | cons d ds ih =>
    intro reg dsx regx h
    unfold loadEntities_pass1 at h
    split at h
    · exact absurd h (by simp)
    · rename_i d1 reg1 heq1
      split at h
      · exact absurd h (by simp)
      · rename_i ds1 reg2 heq2
        simp only [Except.ok.injEq, Prod.mk.injEq] at h
        obtain ⟨hd, hr⟩ := h
        subst hd hr
        obtain ⟨⟨app1, happ1⟩, hlen1⟩ := pass1Dict_ok_reg heq1
        obtain ⟨⟨app2, happ2⟩, hlen2, hidx, hmem⟩ := ih reg1 ds1 reg2 heq2
        refine ⟨⟨app1 ++ app2, by rw [happ2, happ1, List.append_assoc]⟩,
          fun hh => hlen2 (hlen1 hh), ?_, ?_⟩
        · intro i hi hqi
          cases i with
          | zero =>
            obtain ⟨k, hlook, hstyle⟩ := pass1Dict_qualifies (by simpa using hqi) heq1
            refine ⟨k, ?_, by simpa using hstyle⟩
            rw [happ2]
            simpa using regLookup_append hlook app2
          | succ i =>
            simp only [List.getD_cons_succ] at hqi ⊢
            exact hidx i (by simp only [List.length_cons] at hi; omega) hqi
        · intro d2 hd2 hq2
          rcases List.mem_cons.mp hd2 with rfl | hd2
          · obtain ⟨k, hlook, -⟩ := pass1Dict_qualifies hq2 heq1
            rw [happ2]
            exact regLookup_mem (regLookup_append hlook app2)
          · exact hmem d2 hd2 hq2

/-- C2: in the first LoadEntities pass, any two entities whose classname
starts with "light", which share the same non-empty targetname and carry
no explicit style key, are assigned the same style string, and that style
is 32 + k for a registry index k < 32, hence in [32, 63]; moreover, more
than 32 distinct such targetnames make the pass fail fatally. -/
theorem c2_switchable_styles (ext : Ext) (ds : List EntDict) :
    (∀ dsx regx i j, loadEntities_pass1 ext ds [] = .ok (dsx, regx) →
      i < ds.length → j < ds.length →
      qualifiesSwitchable (ds.getD i []) = true →
      qualifiesSwitchable (ds.getD j []) = true →
      dictTargetname (ds.getD i []) = dictTargetname (ds.getD j []) →
      ∃ s : ℤ, 32 ≤ s ∧ s ≤ 63 ∧
        entDictStringForKey (dsx.getD i []) styleKey = intToChars s ∧
        entDictStringForKey (dsx.getD j []) styleKey = intToChars s) ∧
    (32 < ((ds.filter qualifiesSwitchable).map dictTargetname).toFinset.card →
      loadEntities_pass1 ext ds [] = .error ()) := by
  constructor
  · intro dsx regx i j hok hi hj hqi hqj htn
    obtain ⟨-, hlen, hidx, -⟩ := pass1_spec ext ds [] dsx regx hok
    obtain ⟨ki, hki, hsi⟩ := hidx i hi hqi
    obtain ⟨kj, hkj, hsj⟩ := hidx j hj hqj
    rw [htn] at hki
    have hk : kj = ki := by
      rw [hki] at hkj
      exact (Option.some.inj hkj).symm
    have hb := regLookup_lt hki
    have h32 : regx.length ≤ 32 := hlen (by simp)
    refine ⟨32 + (ki : ℤ), by omega, by omega, hsi, ?_⟩
    rw [← hk] at hsi ⊢
    exact hsj
  · intro hcard
    cases hrun : loadEntities_pass1 ext ds [] with
    | error e => cases e; rfl
    | ok p =>
      exfalso
      obtain ⟨dsx, regx⟩ := p
      obtain ⟨-, hlen, -, hmem⟩ := pass1_spec ext ds [] dsx regx hrun
      have hsub : ((ds.filter qualifiesSwitchable).map dictTargetname).toFinset ⊆
          regx.toFinset := by
        intro tn htn
        simp only [List.mem_toFinset, List.mem_map, List.mem_filter] at htn
        obtain ⟨d2, ⟨hd2, hq2⟩, rfl⟩ := htn
        exact List.mem_toFinset.mpr (hmem d2 hd2 hq2)
      have h1 := Finset.card_le_card hsub
      have h2 := regx.toFinset_card_le
      have h3 := hlen (by simp)
      omega

theorem c2_witness :
    ∃ s : ℤ, 32 ≤ s ∧ s ≤ 63 ∧
      entDictStringForKey (c2dsOut.getD 0 []) styleKey = intToChars s ∧
      entDictStringForKey (c2dsOut.getD 1 []) styleKey = intToChars s :=
  (c2_switchable_styles ext0 c2dsIn).1 c2dsOut ["b1".toList] 0 1 (by decide)
    (by decide) (by decide) (by decide) (by decide) (by decide)

/- ### C8: surface light harvesting -/

theorem CreateSurfaceLight_append (ext : Ext) (lights : List LightT)
    (origin normal : Vec3) (tmpl : LightT) :
    ∃ e, CreateSurfaceLight ext lights origin normal tmpl = lights ++ [e] ∧
      e.generated = true := by
  unfold CreateSurfaceLight
  dsimp only
  split
  · exact ⟨_, rfl, rfl⟩
  · exact ⟨_, rfl, rfl⟩

theorem CSLOFS_append (ext : Ext) (bsp : MBsp) (face : MFace) (mi : ModelInfo)
    (tmpl : LightT) (verts : List Vec3) (lights : List LightT) :
    ∃ e, CreateSurfaceLightOnFaceSubdivision ext bsp face mi tmpl verts lights =
      lights ++ [e] ∧ e.generated = true := by
  unfold CreateSurfaceLightOnFaceSubdivision
  dsimp only
  exact CreateSurfaceLight_append ext lights _ _ tmpl

theorem foldlLights_append {f : List LightT → LightT → List LightT}
    (hf : ∀ lights t, ∃ gen, f lights t = lights ++ gen ∧
      ∀ l ∈ gen, l.generated = true) :
    ∀ (ts lights : List LightT),
      ∃ gen, ts.foldl f lights = lights ++ gen ∧ ∀ l ∈ gen, l.generated = true
  | [], lights => ⟨[], by simp, by simp⟩
  | t :: ts, lights => by
    simp only [List.foldl_cons]
    obtain ⟨g1, h1, hp1⟩ := hf lights t
    obtain ⟨g2, h2, hp2⟩ := foldlLights_append hf ts (f lights t)
    refine ⟨g1 ++ g2, ?_, ?_⟩
    · rw [h2, h1, List.append_assoc]
    · intro l hl
      rcases List.mem_append.mp hl with hl | hl
      · exact hp1 l hl
      · exact hp2 l hl

theorem subdivideLeafLights_append (ext : Ext) (bsp : MBsp) (face : MFace)
    (mi : ModelInfo) (tmpls : List LightT) (verts : List Vec3)
    (lights : List LightT) :
    ∃ gen, subdivideLeafLights ext bsp face mi tmpls verts lights =
      lights ++ gen ∧ ∀ l ∈ gen, l.generated = true := by
  unfold subdivideLeafLights
  dsimp only
  refine foldlLights_append ?_ tmpls lights
  intro lights2 t
  split
  · obtain ⟨e, he, hp⟩ := CSLOFS_append ext bsp face mi t verts lights2
    exact ⟨[e], he, by simpa using hp⟩
  · exact ⟨[], by simp, by simp⟩

theorem SubdividePolygon_append {ext : Ext} {bsp : MBsp} {face : MFace}
    {mi : ModelInfo} {tmpls : List LightT} {S : ℚ} :
    ∀ (fuel : ℕ) (verts : List Vec3) (lights lightsx : List LightT),
      SubdividePolygon ext bsp face mi tmpls S fuel verts lights = .ok lightsx →
      ∃ gen, lightsx = lights ++ gen ∧ ∀ l ∈ gen, l.generated = true := by
  intro fuel
  induction fuel with
  | zero =>
    intro verts lights lightsx h
    exact absurd h (by simp [SubdividePolygon])
  | succ f ih =>
    intro verts lights lightsx h
    unfold SubdividePolygon at h
    split at h
    · exact absurd h (by simp)
    · rcases hbp2 : BoundPoly verts with ⟨mins, maxs⟩
      rw [hbp2] at h
      dsimp only at h
      cases hca2 : findCutAxis mins maxs S with
      | none =>
        rw [hca2] at h
        dsimp only at h
        simp only [Except.ok.injEq] at h
        subst h
        exact subdivideLeafLights_append ext bsp face mi tmpls verts lights
      | some am =>
        obtain ⟨axis, m⟩ := am
        rw [hca2] at h
        dsimp only at h
        rcases hch : clipHalves axis m verts with ⟨front, back⟩
        rw [hch] at h
        dsimp only at h
        split at h
        · exact absurd h (by simp)
        · rename_i l1 heq1
          obtain ⟨g1, hg1, hp1⟩ := ih front lights l1 heq1
          obtain ⟨g2, hg2, hp2⟩ := ih back l1 lightsx h
          refine ⟨g1 ++ g2, ?_, ?_⟩
          · rw [hg2, hg1, List.append_assoc]
          · intro l hl
            rcases List.mem_append.mp hl with hl | hl
            · exact hp1 l hl
            · exact hp2 l hl

theorem msFace_append {ext : Ext} {bsp : MBsp} {S : ℚ} {fuel : ℕ}
    {tmpls : List LightT} {underwater : Bool} {facenum : ℕ}
    {st stx : List Bool × List LightT}
    (h : msFace ext bsp S fuel tmpls underwater facenum st = .ok stx) :
    ∃ gen, stx.2 = st.2 ++ gen ∧ ∀ l ∈ gen, l.generated = true := by
  unfold msFace at h
  dsimp only at h
  split at h
  · simp only [Except.ok.injEq] at h
    subst h
    exact ⟨[], by simp, by simp⟩
  · split at h
    · simp only [Except.ok.injEq] at h
      subst h
      exact ⟨[], by simp, by simp⟩
    · split at h
      · split at h
        · simp only [Except.ok.injEq] at h
          subst h
          exact ⟨[], by simp, by simp⟩
        · split at h
          · exact absurd h (by simp)
          · rename_i lights2 heq
            simp only [Except.ok.injEq] at h
            subst h
            unfold GL_SubdivideSurface at heq
            obtain ⟨gen, hg, hp⟩ := SubdividePolygon_append fuel _ _ _ heq
            exact ⟨gen, hg, hp⟩
      · exact absurd h (by simp)

theorem exFoldl_snd_append {α ε : Type}
    {g : List Bool × List LightT → α → Except ε (List Bool × List LightT)}
    (hg : ∀ st a stx, g st a = .ok stx →
      ∃ gen, stx.2 = st.2 ++ gen ∧ ∀ l ∈ gen, l.generated = true) :
    ∀ (xs : List α) (st stx : List Bool × List LightT),
      exFoldl g st xs = .ok stx →
      ∃ gen, stx.2 = st.2 ++ gen ∧ ∀ l ∈ gen, l.generated = true
  | [], st, stx => by
    intro h
    unfold exFoldl at h
    simp only [Except.ok.injEq] at h
    subst h
    exact ⟨[], by simp, by simp⟩
  | a :: as, st, stx => by
    intro h
    unfold exFoldl at h
    split at h
    · exact absurd h (by simp)
    · rename_i s1 heq
      obtain ⟨g1, hg1, hp1⟩ := hg st a s1 heq
      obtain ⟨g2, hg2, hp2⟩ := exFoldl_snd_append hg as s1 stx h
      refine ⟨g1 ++ g2, ?_, ?_⟩
      · rw [hg2, hg1, List.append_assoc]
      · intro l hl
        rcases List.mem_append.mp hl with hl | hl
        · exact hp1 l hl
        · exact hp2 l hl

/-- C8 (amended): when MakeSurfaceLights succeeds, surfacelight_templates is
exactly the sublist of input lights with a non-empty _surface value (with
their original, pre-zeroed fields), the input lights reappear first with
intensity zeroed exactly on those template sources, and every further light
in all_lights is a generated one.  (The generated copies themselves carry
the template's non-empty _surface with its nonzero intensity.) -/
theorem c8_surface_lights (ext : Ext) (bsp : MBsp) (S : ℚ) (fuel : ℕ)
    (lights lightsx tmpls : List LightT)
    (h : MakeSurfaceLights ext bsp S fuel lights = .ok (lightsx, tmpls)) :
    tmpls = lights.filter (fun e => entDictStringForKey e.epairs surfaceKey ≠ []) ∧
    ∃ gen, lightsx = (lights.map fun e =>
        if entDictStringForKey e.epairs surfaceKey ≠ [] then { e with light := 0 }
        else e) ++ gen ∧
      ∀ l ∈ gen, l.generated = true := by
  unfold MakeSurfaceLights at h
  dsimp only [harvestTemplates] at h
  split at h
  · simp only [Except.ok.injEq, Prod.mk.injEq] at h
    obtain ⟨hl, ht⟩ := h
    refine ⟨ht.symm, [], ?_, by simp⟩
    rw [← hl]
    simp
  · split at h
    · exact absurd h (by simp)
    · rename_i st heq
      simp only [Except.ok.injEq, Prod.mk.injEq] at h
      obtain ⟨hl, ht⟩ := h
      refine ⟨ht.symm, ?_⟩
      obtain ⟨gen, hgen, hp⟩ := exFoldl_snd_append (fun st1 a st2 h2 =>
          exFoldl_snd_append (fun st3 k st4 h3 => msFace_append h3) _ st1 st2 h2)
        (List.range bsp.dleafs.length) _ st heq
      refine ⟨gen, ?_, hp⟩
      rw [← hl]
      simpa using hgen

theorem c8_witness :
    ([lightSurf] : List LightT) =
      [lightSurf].filter (fun e => entDictStringForKey e.epairs surfaceKey ≠ []) ∧
    ∃ gen, [({ lightSurf with light := 0 } : LightT)] = ([lightSurf].map fun e =>
        if entDictStringForKey e.epairs surfaceKey ≠ [] then { e with light := 0 }
        else e) ++ gen ∧
      ∀ l ∈ gen, l.generated = true :=
  c8_surface_lights ext0 bsp0 1 1 [lightSurf] [{ lightSurf with light := 0 }]
    [lightSurf] rfl

theorem c8bp : BoundPoly [⟨0,0,0⟩, ⟨8,0,0⟩, ⟨8,8,0⟩, ⟨0,8,0⟩] =
    ((⟨0,0,0⟩ : Vec3), (⟨8,8,0⟩ : Vec3)) := by
  norm_num [BoundPoly, min_def, max_def]

theorem c8ca : findCutAxis ⟨0,0,0⟩ ⟨8,8,0⟩ 128 = none := by
  norm_num [findCutAxis, cutAxisCheck, v3nth]

theorem c8leaf : subdivideLeafLights ext0 bspSurf ⟨0, false, 0, 4, 0⟩ ⟨v3zero⟩
    [lightSurf] [⟨0,0,0⟩, ⟨8,0,0⟩, ⟨8,8,0⟩, ⟨0,8,0⟩] [{ lightSurf with light := 0 }] =
    [{ lightSurf with light := 0 },
     { lightSurf with origin := ⟨4, 4, 2⟩, generated := true }] := by
  norm_num [subdivideLeafLights, CreateSurfaceLightOnFaceSubdivision,
    CreateSurfaceLight, DuplicateEntity, ValueForKey, v3add, v3sub, v3scale,
    v3ma, v3zero, v3nth, lightSurf, lightT0, ext0, entDictStringForKey, edFind,
    surfaceKey, surfaceOffsetKey, surfaceSpotlightKey, qStrcaseEq, chLower,
    BspUtils.Face_TextureName, BspUtils.Face_Miptex, BspUtils.Face_RgbaMiptex,
    BspUtils.Face_Texinfo, BspUtils.BSP_GetTexinfo, miptex0, listGetZ, bspSurf,
    dplane0]

theorem c8sub : SubdividePolygon ext0 bspSurf ⟨0, false, 0, 4, 0⟩ ⟨v3zero⟩
    [lightSurf] 128 5 [⟨0,0,0⟩, ⟨8,0,0⟩, ⟨8,8,0⟩, ⟨0,8,0⟩]
    [{ lightSurf with light := 0 }] =
    .ok [{ lightSurf with light := 0 },
         { lightSurf with origin := ⟨4, 4, 2⟩, generated := true }] := by
  unfold SubdividePolygon
  rw [if_neg (by decide)]
  rw [c8bp]
  dsimp only
  rw [c8ca]
  rw [c8leaf]

theorem c8ms : msFace ext0 bspSurf 128 5 [lightSurf] false 0
    ([false], [{ lightSurf with light := 0 }]) =
    .ok ([true], [{ lightSurf with light := 0 },
                  { lightSurf with origin := ⟨4, 4, 2⟩, generated := true }]) := by
  unfold msFace
  dsimp only
  rw [show ext0.modelInfoF 0 = some ⟨v3zero⟩ from rfl]
  dsimp only
  rw [if_neg (by decide), if_pos (by decide), if_neg (by decide)]
  rw [show bspSurf.dfaces.getD 0 mface0 = ⟨0, false, 0, 4, 0⟩ from rfl,
    show GL_SubdivideSurface ext0 bspSurf ⟨0, false, 0, 4, 0⟩ ⟨v3zero⟩
      [lightSurf] 128 5 [{ lightSurf with light := 0 }] =
      .ok [{ lightSurf with light := 0 },
           { lightSurf with origin := ⟨4, 4, 2⟩, generated := true }] from c8sub]
  rfl

theorem c8mk : MakeSurfaceLights ext0 bspSurf 128 5 [lightSurf] =
    .ok ([{ lightSurf with light := 0 },
          { lightSurf with origin := ⟨4, 4, 2⟩, generated := true }], [lightSurf]) := by
  have e1 : List.filter (fun e => decide (entDictStringForKey e.epairs surfaceKey ≠ []))
      [lightSurf] = [lightSurf] := rfl
  have e2 : decide ((bspSurf.dleafs.getD 0 mleaf0).contents ≠ CONTENTS_EMPTY) = false := rfl
  have e3 : (bspSurf.dleafs.getD 0 mleaf0).firstmarksurface = 0 := rfl
  have e4 : ∀ k : ℕ, bspSurf.dmarksurfaces.getD (0 + k) 0 = 0 := by
    intro k
    cases k <;> rfl
  have e5 : List.replicate bspSurf.dfaces.length false = [false] := rfl
  have e6 : List.map (fun e =>
      if entDictStringForKey e.epairs surfaceKey ≠ [] then { e with light := 0 } else e)
      [lightSurf] = [{ lightSurf with light := 0 }] := rfl
  unfold MakeSurfaceLights
  dsimp only [harvestTemplates]
  rw [if_neg (by decide)]
  rw [show List.range bspSurf.dleafs.length = [0] from rfl]
  unfold exFoldl
  rw [show List.range (bspSurf.dleafs.getD 0 mleaf0).nummarksurfaces = [0] from rfl]
  unfold exFoldl
  simp only [e1, e2, e3, e4, e5, e6]
  rw [c8ms]
  rfl

/-- C8 counterexample: running MakeSurfaceLights on the one-face world with
one surface-light template leaves a generated light in all_lights whose dict
still holds the non-empty _surface value "t" while its intensity is the
template's 300, not 0. -/
theorem c8_counterexample :
    MakeSurfaceLights ext0 bspSurf 128 5 [lightSurf] =
      .ok ([{ lightSurf with light := 0 },
            { lightSurf with origin := ⟨4, 4, 2⟩, generated := true }], [lightSurf]) ∧
    entDictStringForKey
      ({ lightSurf with origin := ⟨4, 4, 2⟩, generated := true } : LightT).epairs
      surfaceKey ≠ [] ∧
    ({ lightSurf with origin := ⟨4, 4, 2⟩, generated := true } : LightT).light ≠ 0 :=
  ⟨c8mk, by decide, by norm_num [lightSurf, lightT0]⟩

end ETools
